import Mathlib

/-!
Shallow embedding of the `stock_reserve_sale` Odoo module
(`src/stock_reserve_sale/model/sale.py`).

Records of the host ORM are embedded as Lean structures; an `Env` is the
collection of all records.  Methods of the module become functions on `Env`.
A raised `UserError` is modelled as `Option String` paired with the state the
records hold at the time of the raise (host-level transaction rollback is not
part of the module's code and is not modelled).  Host (`super`) behaviour is
modelled minimally: `write` applies the given values to the addressed lines,
`create` appends a fresh record, `reserve`/`release` on a stock reservation
set a flag on the record.
-/

namespace StockReserveSale

/-- A product (`product.product`): only the attributes the module reads.
`categ_total_route_ids` stands for `product.categ_id.total_route_ids`. -/
structure Product where
  id : Nat
  type : String
  route_ids : List Nat
  categ_total_route_ids : List Nat
deriving DecidableEq

/-- A procurement rule (`procurement.rule`) as searched by `_get_line_rule`. -/
structure ProcurementRule where
  id : Nat
  route_id : Option Nat
  warehouse_id : Option Nat
  route_sequence : Int
  sequence : Int
  procure_method : String
deriving DecidableEq

/-- A warehouse (`stock.warehouse`): only `route_ids` is read. -/
structure Warehouse where
  id : Nat
  route_ids : List Nat
deriving DecidableEq

/-- A procurement group (`procurement.group`) as created by
`_prepare_stock_reservation`. -/
structure ProcurementGroup where
  id : Nat
  name : String
  move_type : String
  sale_id : Nat
  partner_id : Nat
deriving DecidableEq

/-- A stock reservation (`stock.reservation`).  `reserve_called` and
`release_called` record that the host methods `reserve()` / `release()`
were invoked on the record. -/
structure StockReservation where
  id : Nat
  sale_line_id : Nat
  product_id : Option Nat
  product_uom : Nat
  product_uom_qty : Int
  date_validity : Option Int
  name : String
  note : Option String
  price_unit : Int
  partner_id : Nat
  restrict_partner_id : Option Nat
  group_id : Option Nat
  reserve_called : Bool
  release_called : Bool
deriving DecidableEq

/-- A sale order line (`sale.order.line`) with the fields the module reads or
writes.  `is_stock_reservable` is the stored computed field; `stock_owner_id`
is the optional attribute contributed by `sale_owner_stock_sourcing`
(`none` both when the module is absent and when the owner is not set). -/
structure SaleOrderLine where
  id : Nat
  order_id : Nat
  state : String
  product_id : Option Nat
  product_uom : Nat
  product_uom_qty : Int
  price_unit : Int
  name : String
  stock_owner_id : Option Nat
  is_stock_reservable : Bool
deriving DecidableEq

/-- A sale order (`sale.order`) with the fields the module reads or writes.
`has_stock_reservation` and `is_stock_reservable` are the stored computed
fields. -/
structure SaleOrder where
  id : Nat
  name : String
  state : String
  warehouse_id : Option Nat
  picking_policy : String
  partner_shipping_id : Nat
  procurement_group_id : Option Nat
  has_stock_reservation : Bool
  is_stock_reservable : Bool
deriving DecidableEq

/-- The database: every record of every model, plus a fresh-id counter used by
`create`. -/
structure Env where
  products : List Product
  rules : List ProcurementRule
  warehouses : List Warehouse
  groups : List ProcurementGroup
  reservations : List StockReservation
  lines : List SaleOrderLine
  orders : List SaleOrder
  next_id : Nat
deriving DecidableEq

namespace Env

def findProduct (env : Env) (pid : Nat) : Option Product :=
  env.products.find? (fun p => p.id = pid)

def findWarehouse (env : Env) (wid : Nat) : Option Warehouse :=
  env.warehouses.find? (fun w => w.id = wid)

def findLine (env : Env) (lid : Nat) : Option SaleOrderLine :=
  env.lines.find? (fun l => l.id = lid)

def findOrder (env : Env) (oid : Nat) : Option SaleOrder :=
  env.orders.find? (fun o => o.id = oid)

/-- `line.reservation_ids`: the one2many from `stock.reservation.sale_line_id`. -/
def reservationsOf (env : Env) (lid : Nat) : List StockReservation :=
  env.reservations.filter (fun r => r.sale_line_id = lid)

/-- `order.order_line`: the one2many of lines belonging to the order. -/
def orderLines (env : Env) (oid : Nat) : List SaleOrderLine :=
  env.lines.filter (fun l => l.order_id = oid)

end Env

/-- Strict lexicographic order on `(route_sequence, sequence)`, the
`order='route_sequence, sequence'` of the two searches. -/
def ruleLt (a b : ProcurementRule) : Bool :=
  a.route_sequence < b.route_sequence ||
    (a.route_sequence = b.route_sequence && a.sequence < b.sequence)

/-- Reflexive lexicographic order on `(route_sequence, sequence)`. -/
def ruleLe (a b : ProcurementRule) : Bool :=
  a.route_sequence < b.route_sequence ||
    (a.route_sequence = b.route_sequence && a.sequence ≤ b.sequence)

/-- `search(domain, order='route_sequence, sequence', limit=1)`: the first
record in database order among those with the least key. -/
def searchFirst (rules : List ProcurementRule) (p : ProcurementRule → Bool) :
    Option ProcurementRule :=
  match rules.filter p with
  | [] => none
  | x :: xs => some (xs.foldl (fun best r => if ruleLt r best then r else best) x)

/-- `product.route_ids.mapped('id') + product.categ_id.total_route_ids.mapped('id')`:
empty when the line has no product. -/
def productRouteIds (env : Env) (line : SaleOrderLine) : List Nat :=
  match line.product_id.bind env.findProduct with
  | some p => p.route_ids ++ p.categ_total_route_ids
  | none => []

/-- Domain of the first search: `('route_id', 'in', product_route_ids)`. -/
def ruleRoutePred (ids : List Nat) (r : ProcurementRule) : Bool :=
  match r.route_id with
  | some rid => rid ∈ ids
  | none => false

/-- `warehouse.route_ids.mapped('id')`: empty when the order has no warehouse. -/
def warehouseRouteIds (env : Env) (line : SaleOrderLine) : List Nat :=
  match (env.findOrder line.order_id).bind
      (fun o => o.warehouse_id.bind env.findWarehouse) with
  | some w => w.route_ids
  | none => []

/-- Domain of the fallback search:
`['|', ('warehouse_id', '=', warehouse.id), ('warehouse_id', '=', False),
  ('route_id', 'in', wh_route_ids)]`,
i.e. (warehouse matches or is unset) and the route is a warehouse route. -/
def ruleWarehousePred (owh : Option Nat) (whRoutes : List Nat)
    (r : ProcurementRule) : Bool :=
  (r.warehouse_id = owh || r.warehouse_id = none) &&
    (match r.route_id with
     | some rid => rid ∈ whRoutes
     | none => false)

/-- `order.warehouse_id` of the line's order. -/
def lineOrderWarehouse (env : Env) (line : SaleOrderLine) : Option Nat :=
  (env.findOrder line.order_id).bind (fun o => o.warehouse_id)

/-- `SaleOrderLine._get_line_rule`: first search rules on the product routes,
then fall back to rules on the order warehouse and its routes; each search is
ordered by `route_sequence, sequence` with `limit=1`. -/
def get_line_rule (env : Env) (line : SaleOrderLine) : Option ProcurementRule :=
  let product_route_ids := productRouteIds env line
  let rules := searchFirst env.rules (ruleRoutePred product_route_ids)
  match rules with
  | some r => some r
  | none =>
      searchFirst env.rules
        (ruleWarehousePred (lineOrderWarehouse env line) (warehouseRouteIds env line))

/-- `SaleOrderLine._get_procure_method`. -/
def get_procure_method (env : Env) (line : SaleOrderLine) : Option String :=
  match get_line_rule env line with
  | some rule => some rule.procure_method
  | none => none

/-- `line.product_id.type`. -/
def lineProductType (env : Env) (line : SaleOrderLine) : Option String :=
  (line.product_id.bind env.findProduct).map (fun p => p.type)

/-- Body of `SaleOrderLine._compute_is_stock_reservation` for one line. -/
def computeIsStockReservable (env : Env) (line : SaleOrderLine) : Bool :=
  if (!(line.state ≠ "draft" ||
        get_procure_method env line = some "make_to_order" ||
        line.product_id = none ||
        lineProductType env line = some "service")) &&
      (Env.reservationsOf env line.id).isEmpty then
    true
  else
    false

/-- `SaleOrderLine._compute_is_stock_reservation` run over every line,
storing the result in the stored field. -/
def recomputeLines (env : Env) : Env :=
  { env with
    lines := env.lines.map
      (fun l => { l with is_stock_reservable := computeIsStockReservable env l }) }

/-- Body of `SaleOrder._compute_stock_reservation` for one order: the
accumulator loop over `sale.order_line`, then the state check. -/
def computeStockReservation (env : Env) (order : SaleOrder) : Bool × Bool :=
  let acc := (Env.orderLines env order.id).foldl
    (fun (acc : Bool × Bool) line =>
      ((acc.1 || !(Env.reservationsOf env line.id).isEmpty),
       (acc.2 || line.is_stock_reservable)))
    (false, false)
  let is_reservable := if order.state = "draft" ∨ order.state = "sent" then acc.2 else false
  (acc.1, is_reservable)

/-- The `vals` dictionary passed to `SaleOrderLine.write`: a field of `some v`
means the key is present with value `v`.  `name` stands for any key outside
the guarded ones. -/
structure Vals where
  product_id : Option (Option Nat)
  product_uom_id : Option Nat
  type : Option String
  price_unit : Option Int
  product_uom_qty : Option Int
  name : Option String
deriving DecidableEq

/-- `SaleOrderLine._test_block_on_reserve`: is one of the keys
`product_id`, `product_uom_id`, `type` present? -/
def test_block_on_reserve (vals : Vals) : Bool :=
  vals.product_id.isSome || vals.product_uom_id.isSome || vals.type.isSome

/-- `SaleOrderLine._test_update_on_reserve`: is one of the keys
`price_unit`, `product_uom_qty` present? -/
def test_update_on_reserve (vals : Vals) : Bool :=
  vals.price_unit.isSome || vals.product_uom_qty.isSome

/-- `self.mapped('reservation_ids')` over a recordset of line ids. -/
def mappedReservations (env : Env) (ids : List Nat) : List StockReservation :=
  env.reservations.filter (fun r => r.sale_line_id ∈ ids)

/-- Host `write` applied to one line record: each present key overwrites the
field (the `type` key addresses no field this embedding tracks). -/
def superWriteLine (vals : Vals) (l : SaleOrderLine) : SaleOrderLine :=
  { l with
    product_id := vals.product_id.getD l.product_id
    product_uom := vals.product_uom_id.getD l.product_uom
    price_unit := vals.price_unit.getD l.price_unit
    product_uom_qty := vals.product_uom_qty.getD l.product_uom_qty
    name := vals.name.getD l.name }

/-- Host `super().write(vals)` on a recordset of line ids. -/
def superWrite (env : Env) (ids : List Nat) (vals : Vals) : Env :=
  { env with
    lines := env.lines.map (fun l => if l.id ∈ ids then superWriteLine vals l else l) }

/-- The `UserError` message of `_update_reservation_price_qty`. -/
def severalReservationsMsg : String :=
  "Several stock reservations are linked with the line. Impossible to adjust their quantity. Please release the reservation before changing the quantity."

/-- The `UserError` message of the block guard in `SaleOrderLine.write`. -/
def blockOnReserveMsg : String :=
  "You cannot change the product or unit of measure of lines with a stock reservation. Release the reservation before changing the product."

/-- One iteration of the loop of `_update_reservation_price_qty`: skip a line
without reservations, raise on several, otherwise copy the line's
`price_unit` and `product_uom_qty` onto its reservation. -/
def updateResForLine (env : Env) (lid : Nat) : Env × Option String :=
  match env.findLine lid with
  | none => (env, none)
  | some line =>
      let rs := Env.reservationsOf env lid
      if rs.isEmpty then (env, none)
      else if rs.length > 1 then (env, some severalReservationsMsg)
      else
        ({ env with
           reservations := env.reservations.map
             (fun r =>
               if r.sale_line_id = lid then
                 { r with price_unit := line.price_unit
                          product_uom_qty := line.product_uom_qty }
               else r) },
         none)

/-- `SaleOrderLine._update_reservation_price_qty`: the loop over the recordset,
stopping at the first `UserError`. -/
def update_reservation_price_qty : Env → List Nat → Env × Option String
  | env, [] => (env, none)
  | env, lid :: rest =>
      match updateResForLine env lid with
      | (env2, some e) => (env2, some e)
      | (env2, none) => update_reservation_price_qty env2 rest

/-- `SaleOrderLine.write`: block guard, delegated host write, then the
cascade to reservations.  The returned `Env` is the record state at return
or at the point of the raise. -/
def lineWrite (env : Env) (ids : List Nat) (vals : Vals) : Env × Option String :=
  if test_block_on_reserve vals && (mappedReservations env ids).length > 0 then
    (env, some blockOnReserveMsg)
  else if test_update_on_reserve vals then
    update_reservation_price_qty (superWrite env ids vals) ids
  else
    (superWrite env ids vals, none)

/-- The group-creation step of `_prepare_stock_reservation`: when the order
has no procurement group, create one and link it to the order; return the
group id. -/
def ensureGroup (env : Env) (order : SaleOrder) : Env × Nat :=
  match order.procurement_group_id with
  | some gid => (env, gid)
  | none =>
      ({ env with
         groups := env.groups ++
           [{ id := env.next_id, name := order.name,
              move_type := order.picking_policy, sale_id := order.id,
              partner_id := order.partner_shipping_id }]
         orders := env.orders.map
           (fun o => if o.id = order.id then
               { o with procurement_group_id := some env.next_id } else o)
         next_id := env.next_id + 1 },
       env.next_id)

/-- `SaleOrderLine._prepare_stock_reservation`: create the order's procurement
group when missing, then build the reservation values from the line. -/
def prepare_stock_reservation (env : Env) (line : SaleOrderLine)
    (date_validity : Option Int) (note : Option String) :
    Env × StockReservation :=
  match env.findOrder line.order_id with
  | none =>
      -- a line always belongs to an order; unreachable for well-formed data
      (env,
       { id := env.next_id, sale_line_id := line.id, product_id := line.product_id,
         product_uom := line.product_uom, product_uom_qty := line.product_uom_qty,
         date_validity := date_validity,
         name := "(" ++ line.name ++ ")", note := note,
         price_unit := line.price_unit, partner_id := 0,
         restrict_partner_id := line.stock_owner_id, group_id := none,
         reserve_called := false, release_called := false })
  | some order =>
      ((ensureGroup env order).1,
       { id := (ensureGroup env order).1.next_id, sale_line_id := line.id,
         product_id := line.product_id,
         product_uom := line.product_uom, product_uom_qty := line.product_uom_qty,
         date_validity := date_validity,
         name := order.name ++ " (" ++ line.name ++ ")", note := note,
         price_unit := line.price_unit, partner_id := order.partner_shipping_id,
         restrict_partner_id := line.stock_owner_id,
         group_id := some (ensureGroup env order).2,
         reserve_called := false, release_called := false })

/-- One `reserv_obj.create(vals)` call: prepare the values from the line and
append the new reservation record. -/
def createResv (env : Env) (line : SaleOrderLine) : Env × StockReservation :=
  ({ (prepare_stock_reservation env line none none).1 with
     reservations := (prepare_stock_reservation env line none none).1.reservations
       ++ [(prepare_stock_reservation env line none none).2]
     next_id := (prepare_stock_reservation env line none none).1.next_id + 1 },
   (prepare_stock_reservation env line none none).2)

/-- The loop of `acquire_stock_reservation`: create a reservation for every
reservable line, accumulating the ids of the created records. -/
def acquireLoop : Env → List Nat → List Nat → Env × List Nat
  | env, [], created => (env, created)
  | env, lid :: rest, created =>
      match env.findLine lid with
      | none => acquireLoop env rest created
      | some line =>
          if line.is_stock_reservable then
            acquireLoop (createResv env line).1 rest
              (created ++ [(createResv env line).2.id])
          else
            acquireLoop env rest created

/-- `SaleOrderLine.acquire_stock_reservation` (with default `date_validity`
and `note`): create the reservations, then call `reserve()` on all of them,
and return `True`. -/
def acquire_stock_reservation (env : Env) (ids : List Nat) : Env × Bool :=
  ({ (acquireLoop env ids []).1 with
     reservations := (acquireLoop env ids []).1.reservations.map
       (fun r => if r.id ∈ (acquireLoop env ids []).2 then
           { r with reserve_called := true } else r) },
   true)

/-- `SaleOrderLine.release_stock_reservation`: call `release()` on
`self.mapped('reservation_ids')` and return `True`. -/
def release_stock_reservation (env : Env) (ids : List Nat) : Env × Bool :=
  ({ env with
     reservations := env.reservations.map
       (fun r => if r.sale_line_id ∈ ids then { r with release_called := true } else r) },
   true)

/-- `SaleOrder.release_all_stock_reservation`: release the reservations of
`self.mapped('order_line')`. -/
def release_all_stock_reservation (env : Env) (orderIds : List Nat) : Env × Bool :=
  let lineIds := (env.lines.filter (fun l => l.order_id ∈ orderIds)).map
    (fun l => l.id)
  release_stock_reservation env lineIds

/-- Host `super()._action_confirm()` modelled minimally: the orders move to
state `sale`; reservations are not touched by the host here. -/
def superActionConfirm (env : Env) (orderIds : List Nat) : Env :=
  { env with
    orders := env.orders.map
      (fun o => if o.id ∈ orderIds then { o with state := "sale" } else o) }

/-- Host `super().action_cancel()` modelled minimally: the orders move to
state `cancel`. -/
def superActionCancel (env : Env) (orderIds : List Nat) : Env :=
  { env with
    orders := env.orders.map
      (fun o => if o.id ∈ orderIds then { o with state := "cancel" } else o) }

/-- `SaleOrder._action_confirm`: release all reservations, then delegate. -/
def action_confirm (env : Env) (orderIds : List Nat) : Env :=
  superActionConfirm (release_all_stock_reservation env orderIds).1 orderIds

/-- `SaleOrder.action_cancel`: release all reservations, then delegate. -/
def action_cancel (env : Env) (orderIds : List Nat) : Env :=
  superActionCancel (release_all_stock_reservation env orderIds).1 orderIds

/-! Generic list lemmas used throughout. -/

theorem foldl_orPair {α : Type} (p q : α → Bool) (l : List α) (a b : Bool) :
    l.foldl (fun acc x => ((acc.1 || p x), (acc.2 || q x))) (a, b)
      = (a || l.any p, b || l.any q) := by
  induction l generalizing a b with
  | nil => simp
  | cons x xs ih => simp [List.any_cons, ih, Bool.or_assoc]

theorem find?_map_of_pred {α : Type} (f : α → α) (p : α → Bool)
    (h : ∀ x, p (f x) = p x) (l : List α) :
    (l.map f).find? p = (l.find? p).map f := by
  induction l with
  | nil => rfl
  | cons x xs ih =>
      by_cases hx : p x = true
      · simp [List.find?, h, hx]
      · simp only [Bool.not_eq_true] at hx
        simp [List.find?, h, hx, ih]

theorem filter_map_same {α : Type} (f : α → α) (p : α → Bool)
    (h : ∀ x, p (f x) = p x) (l : List α) :
    (l.map f).filter p = (l.filter p).map f := by
  induction l with
  | nil => rfl
  | cons x xs ih =>
      by_cases hx : p x = true
      · simp [List.filter, h, hx, ih]
      · simp only [Bool.not_eq_true] at hx
        simp [List.filter, h, hx, ih]

theorem filter_map_id {α : Type} (f : α → α) (p : α → Bool)
    (hp : ∀ x, p (f x) = p x) (hid : ∀ x, p x = true → f x = x) (l : List α) :
    (l.map f).filter p = l.filter p := by
  induction l with
  | nil => rfl
  | cons x xs ih =>
      by_cases hx : p x = true
      · simp [List.filter, hp, hx, ih, hid x hx]
      · simp only [Bool.not_eq_true] at hx
        simp [List.filter, hp, hx, ih]

theorem length_filter_map {α β : Type} (f : α → β) (p : β → Bool) (l : List α) :
    ((l.map f).filter p).length = (l.filter (fun a => p (f a))).length := by
  induction l with
  | nil => rfl
  | cons x xs ih =>
      by_cases hx : p (f x) = true
      · simp [List.filter, hx, ih]
      · simp only [Bool.not_eq_true] at hx
        simp [List.filter, hx, ih]

theorem filter_eq_nil_of_not_mem {α : Type} [DecidableEq α] (l : List α) (a : α)
    (h : a ∉ l) : l.filter (fun x => x = a) = [] := by
  induction l with
  | nil => rfl
  | cons x xs ih =>
      simp only [List.mem_cons, not_or] at h
      have hxa : ¬(x = a) := fun he => h.1 he.symm
      simp [List.filter_cons, hxa, ih h.2]

theorem filter_eq_singleton_of_nodup {α : Type} [DecidableEq α] (l : List α) (a : α)
    (hn : l.Nodup) (h : a ∈ l) : l.filter (fun x => x = a) = [a] := by
  induction l with
  | nil => exact absurd h (List.not_mem_nil a)
  | cons x xs ih =>
      rcases List.nodup_cons.mp hn with ⟨hx, hxs⟩
      rcases List.mem_cons.mp h with h1 | h2
      · subst h1
        simp [List.filter_cons, filter_eq_nil_of_not_mem xs a hx]
      · have hxa : ¬(x = a) := fun he => hx (by rw [he]; exact h2)
        simp [List.filter_cons, hxa, ih hxs h2]

/-- C4: `_compute_stock_reservation` sets `has_stock_reservation` to true iff
some order line has a non-empty `reservation_ids`, and `is_stock_reservable`
to true iff some order line is reservable and the order state is `draft` or
`sent`. -/
theorem claim_C4_compute_stock_reservation (env : Env) (order : SaleOrder) :
    ((computeStockReservation env order).1 = true ↔
      ∃ l ∈ Env.orderLines env order.id, Env.reservationsOf env l.id ≠ [])
  ∧ ((computeStockReservation env order).2 = true ↔
      ((∃ l ∈ Env.orderLines env order.id, l.is_stock_reservable = true) ∧
        (order.state = "draft" ∨ order.state = "sent"))) := by
  have h := foldl_orPair (fun line => !(Env.reservationsOf env line.id).isEmpty)
    (fun line => line.is_stock_reservable) (Env.orderLines env order.id) false false
  unfold computeStockReservation
  simp only at h
  simp only [h]
  constructor
  · simp [List.any_eq_true, List.isEmpty_iff]
  · by_cases hs : order.state = "draft" ∨ order.state = "sent"
    · simp [hs, List.any_eq_true]
    · simp [hs]

/-- C8: the line compute grants `is_stock_reservable` only to a line with no
linked reservation, in state `draft`, with a product that is not a service,
whose applicable rule's procure method is not `make_to_order`. -/
theorem claim_C8_reservable_invariant (env : Env) (line : SaleOrderLine)
    (h : computeIsStockReservable env line = true) :
    Env.reservationsOf env line.id = []
  ∧ line.state = "draft"
  ∧ line.product_id ≠ none
  ∧ lineProductType env line ≠ some "service"
  ∧ get_procure_method env line ≠ some "make_to_order" := by
  have hb : ∀ b : Bool, (if b = true then true else false) = b := by
    intro b; cases b <;> simp
  unfold computeIsStockReservable at h
  rw [hb] at h
  simp only [Bool.and_eq_true, Bool.not_eq_true', Bool.or_eq_false_iff,
    decide_eq_true_eq, decide_eq_false_iff_not, not_or, not_not,
    List.isEmpty_iff] at h
  rcases h with ⟨⟨⟨⟨h1, h2⟩, h3⟩, h4⟩, h5⟩
  exact ⟨h5, h1, h3, h4, h2⟩

/-- Concrete records used by the witnesses. -/
def productW : Product :=
  { id := 50, type := "product", route_ids := [], categ_total_route_ids := [] }

def orderW : SaleOrder :=
  { id := 1, name := "SO1", state := "draft", warehouse_id := none,
    picking_policy := "direct", partner_shipping_id := 8,
    procurement_group_id := none, has_stock_reservation := false,
    is_stock_reservable := false }

def lineW : SaleOrderLine :=
  { id := 2, order_id := 1, state := "draft", product_id := some 50,
    product_uom := 7, product_uom_qty := 4, price_unit := 9, name := "L",
    stock_owner_id := none, is_stock_reservable := true }

def envW : Env :=
  { products := [productW], rules := [], warehouses := [], groups := [],
    reservations := [], lines := [lineW], orders := [orderW], next_id := 100 }

/-- Witness for C8 at a concrete reservable line. -/
theorem claim_C8_reservable_invariant_witness :
    computeIsStockReservable envW lineW = true ∧
    (Env.reservationsOf envW lineW.id = []
      ∧ lineW.state = "draft"
      ∧ lineW.product_id ≠ none
      ∧ lineProductType envW lineW ≠ some "service"
      ∧ get_procure_method envW lineW ≠ some "make_to_order") :=
  ⟨by decide, claim_C8_reservable_invariant envW lineW (by decide)⟩

/-! Lemmas about the write guards. -/

theorem mappedReservations_pos_iff (env : Env) (ids : List Nat) :
    0 < (mappedReservations env ids).length ↔
      ∃ lid ∈ ids, Env.reservationsOf env lid ≠ [] := by
  constructor
  · intro h
    obtain ⟨r, hr⟩ := List.exists_mem_of_length_pos h
    have hmem := List.mem_filter.mp hr
    refine ⟨r.sale_line_id, by simpa using hmem.2, fun hnil => ?_⟩
    have hrin : r ∈ Env.reservationsOf env r.sale_line_id :=
      List.mem_filter.mpr ⟨hmem.1, by simp⟩
    rw [hnil] at hrin
    exact List.not_mem_nil r hrin
  · rintro ⟨lid, hlid, hne⟩
    obtain ⟨r, hr⟩ := List.exists_mem_of_ne_nil _ hne
    have hmem := List.mem_filter.mp hr
    have hslid : r.sale_line_id = lid := by simpa using hmem.2
    have : r ∈ mappedReservations env ids :=
      List.mem_filter.mpr ⟨hmem.1, by simp [hslid, hlid]⟩
    exact List.length_pos.mpr (List.ne_nil_of_mem this)

theorem reservationsOf_superWrite (env : Env) (ids : List Nat) (vals : Vals)
    (lid : Nat) :
    Env.reservationsOf (superWrite env ids vals) lid = Env.reservationsOf env lid := rfl

theorem update_no_res : ∀ (ids : List Nat) (env : Env),
    (∀ lid ∈ ids, Env.reservationsOf env lid = []) →
    update_reservation_price_qty env ids = (env, none) := by
  intro ids
  induction ids with
  | nil => intro env _; rfl
  | cons lid rest ih =>
      intro env hall
      have hstep : updateResForLine env lid = (env, none) := by
        unfold updateResForLine
        cases hf : env.findLine lid with
        | none => rfl
        | some line =>
            have : Env.reservationsOf env lid = [] := hall lid (List.mem_cons_self lid rest)
            simp [this]
      unfold update_reservation_price_qty
      rw [hstep]
      exact ih env (fun l hl => hall l (List.mem_cons_of_mem lid hl))

/-- C1: with a blocked key (`product_id`, `product_uom_id` or `type`) present,
`write` raises the block `UserError` before the host write whenever some line
has a reservation, leaving all records unchanged; with no reservation on any
line it proceeds to the plain host write without error. -/
theorem claim_C1_write_block_guard (env : Env) (ids : List Nat) (vals : Vals)
    (hblock : test_block_on_reserve vals = true) :
    ((∃ lid ∈ ids, Env.reservationsOf env lid ≠ []) →
        lineWrite env ids vals = (env, some blockOnReserveMsg))
  ∧ ((∀ lid ∈ ids, Env.reservationsOf env lid = []) →
        lineWrite env ids vals = (superWrite env ids vals, none)) := by
  constructor
  · intro hex
    have hpos := (mappedReservations_pos_iff env ids).mpr hex
    unfold lineWrite
    rw [hblock]
    simp [hpos]
  · intro hall
    have hz : ¬(0 < (mappedReservations env ids).length) := by
      rw [mappedReservations_pos_iff]
      rintro ⟨lid, hlid, hne⟩
      exact hne (hall lid hlid)
    unfold lineWrite
    rw [hblock]
    simp only [Bool.true_and]
    rw [if_neg (by simpa using hz)]
    by_cases hu : test_update_on_reserve vals = true
    · rw [if_pos hu]
      exact update_no_res ids (superWrite env ids vals)
        (fun lid hl => by rw [reservationsOf_superWrite]; exact hall lid hl)
    · rw [if_neg hu]

/-- Records for the C1 witness. -/
def lineC1 : SaleOrderLine :=
  { id := 2, order_id := 1, state := "draft", product_id := some 50,
    product_uom := 7, product_uom_qty := 4, price_unit := 9, name := "L1",
    stock_owner_id := none, is_stock_reservable := false }

def resvC1 : StockReservation :=
  { id := 10, sale_line_id := 2, product_id := some 50, product_uom := 7,
    product_uom_qty := 4, date_validity := none, name := "R1", note := none,
    price_unit := 9, partner_id := 8, restrict_partner_id := none,
    group_id := none, reserve_called := false, release_called := false }

def envC1 : Env :=
  { products := [], rules := [], warehouses := [], groups := [],
    reservations := [resvC1], lines := [lineC1], orders := [], next_id := 100 }

def valsC1 : Vals :=
  { product_id := some (some 51), product_uom_id := none, type := none,
    price_unit := none, product_uom_qty := none, name := none }

/-- Witness for C1: a concrete blocked write on a reserved line. -/
theorem claim_C1_write_block_guard_witness :
    test_block_on_reserve valsC1 = true ∧
    lineWrite envC1 [2] valsC1 = (envC1, some blockOnReserveMsg) :=
  ⟨by decide,
   (claim_C1_write_block_guard envC1 [2] valsC1 (by decide)).1
     ⟨2, by decide, by decide⟩⟩

/-- C10: a write touching none of the guarded keys raises no module error and
leaves every stock reservation unchanged. -/
theorem claim_C10_write_frame (env : Env) (ids : List Nat) (vals : Vals)
    (h1 : vals.product_id = none) (h2 : vals.product_uom_id = none)
    (h3 : vals.type = none) (h4 : vals.price_unit = none)
    (h5 : vals.product_uom_qty = none) :
    (lineWrite env ids vals).2 = none ∧
    (lineWrite env ids vals).1.reservations = env.reservations := by
  have hb : test_block_on_reserve vals = false := by
    simp [test_block_on_reserve, h1, h2, h3]
  have hu : test_update_on_reserve vals = false := by
    simp [test_update_on_reserve, h4, h5]
  unfold lineWrite
  rw [hb]
  simp [hu, superWrite]

/-- Records for the C10 witness. -/
def lineC10 : SaleOrderLine :=
  { id := 1, order_id := 1, state := "draft", product_id := some 50,
    product_uom := 7, product_uom_qty := 4, price_unit := 9, name := "L10",
    stock_owner_id := none, is_stock_reservable := false }

def resvC10 : StockReservation :=
  { id := 11, sale_line_id := 1, product_id := some 50, product_uom := 7,
    product_uom_qty := 4, date_validity := none, name := "R10", note := none,
    price_unit := 9, partner_id := 8, restrict_partner_id := none,
    group_id := none, reserve_called := false, release_called := false }

def envC10 : Env :=
  { products := [], rules := [], warehouses := [], groups := [],
    reservations := [resvC10], lines := [lineC10], orders := [], next_id := 100 }

def valsC10 : Vals :=
  { product_id := none, product_uom_id := none, type := none,
    price_unit := none, product_uom_qty := none, name := some "renamed" }

/-- Witness for C10: a concrete unguarded write on a reserved line. -/
theorem claim_C10_write_frame_witness :
    (lineWrite envC10 [1] valsC10).2 = none ∧
    (lineWrite envC10 [1] valsC10).1.reservations = envC10.reservations :=
  claim_C10_write_frame envC10 [1] valsC10 rfl rfl rfl rfl rfl

/-! Lemmas about `_update_reservation_price_qty`. -/

/-- All reservations of line `lid` in `env` carry price `p` and quantity `q`. -/
def Synced (env : Env) (lid : Nat) (p q : Int) : Prop :=
  ∀ r ∈ env.reservations, r.sale_line_id = lid →
    r.price_unit = p ∧ r.product_uom_qty = q

theorem findLine_congr (e1 e2 : Env) (h : e1.lines = e2.lines) (lid : Nat) :
    e1.findLine lid = e2.findLine lid := by
  unfold Env.findLine
  rw [h]

theorem updateResForLine_lines (env : Env) (lid : Nat) :
    (updateResForLine env lid).1.lines = env.lines := by
  unfold updateResForLine
  cases env.findLine lid with
  | none => rfl
  | some line =>
      dsimp only
      split
      · rfl
      · split
        · rfl
        · rfl

theorem updateResForLine_shape (env : Env) (lid : Nat) :
    ∃ f : StockReservation → StockReservation,
      (updateResForLine env lid).1.reservations = env.reservations.map f
      ∧ (∀ r, (f r).sale_line_id = r.sale_line_id)
      ∧ (∀ r, r.sale_line_id ≠ lid → f r = r) := by
  unfold updateResForLine
  cases env.findLine lid with
  | none => exact ⟨id, by simp, fun r => rfl, fun r _ => rfl⟩
  | some line =>
      dsimp only
      split
      · exact ⟨id, by simp, fun r => rfl, fun r _ => rfl⟩
      · split
        · exact ⟨id, by simp, fun r => rfl, fun r _ => rfl⟩
        · refine ⟨fun r => if r.sale_line_id = lid then
              { r with price_unit := line.price_unit,
                       product_uom_qty := line.product_uom_qty } else r, rfl, ?_, ?_⟩
          · intro r
            by_cases hr : r.sale_line_id = lid
            · simp [hr]
            · simp [hr]
          · intro r hr
            simp [hr]

theorem updateResForLine_classify (env : Env) (lid : Nat) :
    (updateResForLine env lid).2 = none ∨
      updateResForLine env lid = (env, some severalReservationsMsg) := by
  unfold updateResForLine
  cases env.findLine lid with
  | none => exact Or.inl rfl
  | some line =>
      dsimp only
      split
      · exact Or.inl rfl
      · split
        · exact Or.inr rfl
        · exact Or.inl rfl

theorem updateResForLine_err_env (env : Env) (lid : Nat) (e : String)
    (h : (updateResForLine env lid).2 = some e) :
    (updateResForLine env lid).1 = env := by
  rcases updateResForLine_classify env lid with hc | hc
  · rw [h] at hc; exact absurd hc (by simp)
  · rw [hc]

theorem updateResForLine_err_msg (env : Env) (lid : Nat) (e : String)
    (h : (updateResForLine env lid).2 = some e) :
    e = severalReservationsMsg := by
  rcases updateResForLine_classify env lid with hc | hc
  · rw [h] at hc; exact absurd hc (by simp)
  · rw [hc] at h
    exact (Option.some.inj h).symm

theorem updateResForLine_resCount (env : Env) (lid lid2 : Nat) :
    (Env.reservationsOf (updateResForLine env lid).1 lid2).length
      = (Env.reservationsOf env lid2).length := by
  rcases updateResForLine_shape env lid with ⟨f, hmap, hslid, _⟩
  unfold Env.reservationsOf
  rw [hmap, length_filter_map]
  simp only [hslid]

theorem updateResForLine_resOf_ne (env : Env) (lid lid2 : Nat) (hne : lid2 ≠ lid) :
    Env.reservationsOf (updateResForLine env lid).1 lid2
      = Env.reservationsOf env lid2 := by
  rcases updateResForLine_shape env lid with ⟨f, hmap, hslid, hid⟩
  unfold Env.reservationsOf
  rw [hmap]
  exact filter_map_id f _ (fun x => by simp [hslid])
    (fun x hx => hid x (by
      have : x.sale_line_id = lid2 := by simpa using hx
      rw [this]; exact hne)) env.reservations

theorem updateResForLine_multi_err (env : Env) (lid : Nat) (l : SaleOrderLine)
    (hf : env.findLine lid = some l)
    (hm : 1 < (Env.reservationsOf env lid).length) :
    updateResForLine env lid = (env, some severalReservationsMsg) := by
  unfold updateResForLine
  rw [hf]
  dsimp only
  have hne : (Env.reservationsOf env lid).isEmpty = false := by
    cases hrs : Env.reservationsOf env lid with
    | nil => rw [hrs] at hm; simp at hm
    | cons a as => rfl
  rw [hne]
  simp [hm]

theorem update_lines : ∀ (ids : List Nat) (env : Env),
    (update_reservation_price_qty env ids).1.lines = env.lines := by
  intro ids
  induction ids with
  | nil => intro env; rfl
  | cons lid rest ih =>
      intro env
      unfold update_reservation_price_qty
      cases hstep : updateResForLine env lid with
      | mk env2 e =>
          cases e with
          | none =>
              dsimp only
              rw [ih env2]
              have := updateResForLine_lines env lid
              rw [hstep] at this
              exact this
          | some msg =>
              dsimp only
              have := updateResForLine_lines env lid
              rw [hstep] at this
              exact this

theorem update_resCount : ∀ (ids : List Nat) (env : Env) (lid2 : Nat),
    (Env.reservationsOf (update_reservation_price_qty env ids).1 lid2).length
      = (Env.reservationsOf env lid2).length := by
  intro ids
  induction ids with
  | nil => intro env lid2; rfl
  | cons lid rest ih =>
      intro env lid2
      unfold update_reservation_price_qty
      cases hstep : updateResForLine env lid with
      | mk env2 e =>
          have hcnt := updateResForLine_resCount env lid lid2
          rw [hstep] at hcnt
          cases e with
          | none => dsimp only; rw [ih env2]; exact hcnt
          | some msg => dsimp only; exact hcnt

theorem update_err_msg : ∀ (ids : List Nat) (env : Env),
    (update_reservation_price_qty env ids).2 ≠ none →
    (update_reservation_price_qty env ids).2 = some severalReservationsMsg := by
  intro ids
  induction ids with
  | nil => intro env h; exact absurd rfl h
  | cons lid rest ih =>
      intro env h
      unfold update_reservation_price_qty at h ⊢
      cases hstep : updateResForLine env lid with
      | mk env2 e =>
          rw [hstep] at h
          cases e with
          | none => exact ih env2 (by exact h)
          | some msg =>
              dsimp only
              have hmsg : msg = severalReservationsMsg :=
                updateResForLine_err_msg env lid msg (by rw [hstep])
              rw [hmsg]
theorem updateResForLine_none_findLine (env : Env) (lid : Nat)
    (hf : env.findLine lid = none) : updateResForLine env lid = (env, none) := by
  unfold updateResForLine
  rw [hf]

theorem updateResForLine_establishes_synced (env : Env) (lid : Nat)
    (line : SaleOrderLine) (hf : env.findLine lid = some line)
    (hok : (updateResForLine env lid).2 = none) :
    Synced (updateResForLine env lid).1 lid line.price_unit line.product_uom_qty := by
  by_cases hemp : Env.reservationsOf env lid = []
  · -- no reservation of the line exists, so the property is vacuous
    rcases updateResForLine_shape env lid with ⟨f, hmap, hslid, _⟩
    intro r' hr' hslid'
    exfalso
    rw [hmap] at hr'
    rcases List.mem_map.mp hr' with ⟨r, hr, rfl⟩
    have hrs : r.sale_line_id = lid := by rw [← hslid r]; exact hslid'
    have : r ∈ Env.reservationsOf env lid :=
      List.mem_filter.mpr ⟨hr, by simp [hrs]⟩
    rw [hemp] at this
    exact List.not_mem_nil r this
  · have hni : ¬((Env.reservationsOf env lid).isEmpty = true) := by
      simpa [List.isEmpty_iff] using hemp
    have hng : ¬((Env.reservationsOf env lid).length > 1) := by
      intro hgt
      have := updateResForLine_multi_err env lid line hf hgt
      rw [this] at hok
      exact absurd hok (by simp)
    unfold updateResForLine
    rw [hf]
    dsimp only
    rw [if_neg hni, if_neg hng]
    intro r' hr' hslid'
    dsimp only at hr'
    rcases List.mem_map.mp hr' with ⟨r, hr, rfl⟩
    by_cases hrs : r.sale_line_id = lid
    · rw [if_pos hrs]
      exact ⟨rfl, rfl⟩
    · rw [if_pos ?hc]
      case hc =>
        rw [if_neg hrs] at hslid'
        exact absurd hslid' hrs
      exact ⟨rfl, rfl⟩

theorem updateResForLine_preserves_synced (env : Env) (lid lid2 : Nat)
    (line : SaleOrderLine) (hf : env.findLine lid = some line)
    (h : Synced env lid line.price_unit line.product_uom_qty) :
    Synced (updateResForLine env lid2).1 lid line.price_unit line.product_uom_qty := by
  by_cases heq : lid2 = lid
  · subst heq
    rcases updateResForLine_classify env lid2 with hc | hc
    · exact updateResForLine_establishes_synced env lid2 line hf hc
    · rw [hc]; exact h
  · rcases updateResForLine_shape env lid2 with ⟨f, hmap, hslid, hid⟩
    intro r' hr' hslid'
    rw [hmap] at hr'
    rcases List.mem_map.mp hr' with ⟨r, hr, rfl⟩
    have hrs : r.sale_line_id = lid := by rw [← hslid r]; exact hslid'
    have hfix : f r = r := hid r (by rw [hrs]; exact fun hcc => heq hcc.symm)
    rw [hfix]
    exact h r hr hrs

theorem update_preserves_synced : ∀ (ids : List Nat) (env : Env) (lid : Nat)
    (line : SaleOrderLine), env.findLine lid = some line →
    Synced env lid line.price_unit line.product_uom_qty →
    Synced (update_reservation_price_qty env ids).1 lid
      line.price_unit line.product_uom_qty := by
  intro ids
  induction ids with
  | nil => intro env lid line _ h; exact h
  | cons lid0 rest ih =>
      intro env lid line hf h
      unfold update_reservation_price_qty
      cases hstep : updateResForLine env lid0 with
      | mk env2 e =>
          have hsy : Synced env2 lid line.price_unit line.product_uom_qty := by
            have := updateResForLine_preserves_synced env lid lid0 line hf h
            rw [hstep] at this
            exact this
          cases e with
          | some msg => exact hsy
          | none =>
              dsimp only
              refine ih env2 lid line ?_ hsy
              have hl := updateResForLine_lines env lid0
              rw [hstep] at hl
              rw [findLine_congr env2 env hl lid]
              exact hf

theorem update_synced_of_mem : ∀ (ids : List Nat) (env : Env) (lid : Nat)
    (line : SaleOrderLine),
    (update_reservation_price_qty env ids).2 = none →
    lid ∈ ids → env.findLine lid = some line →
    Synced (update_reservation_price_qty env ids).1 lid
      line.price_unit line.product_uom_qty := by
  intro ids
  induction ids with
  | nil => intro env lid line _ hmem _; exact absurd hmem (List.not_mem_nil lid)
  | cons lid0 rest ih =>
      intro env lid line hok hmem hf
      unfold update_reservation_price_qty at hok ⊢
      cases hstep : updateResForLine env lid0 with
      | mk env2 e =>
          rw [hstep] at hok
          cases e with
          | some msg => exact absurd hok (by simp)
          | none =>
              dsimp only at hok ⊢
              have hl := updateResForLine_lines env lid0
              rw [hstep] at hl
              have hf2 : env2.findLine lid = some line := by
                rw [findLine_congr env2 env hl lid]; exact hf
              rcases List.mem_cons.mp hmem with h1 | h2
              · subst h1
                have hsy : Synced env2 lid line.price_unit line.product_uom_qty := by
                  have := updateResForLine_establishes_synced env lid line hf
                    (by rw [hstep])
                  rw [hstep] at this
                  exact this
                exact update_preserves_synced rest env2 lid line hf2 hsy
              · exact ih env2 lid line hok h2 hf2

/-- C2: when `write` carries `price_unit` or `product_uom_qty` and completes
without error, every line of the recordset with exactly one linked reservation
ends with that reservation's price and quantity equal to the line's. -/
theorem claim_C2_write_syncs_reservation (env : Env) (ids : List Nat)
    (vals : Vals) (hup : test_update_on_reserve vals = true)
    (hok : (lineWrite env ids vals).2 = none)
    (lid : Nat) (hmem : lid ∈ ids) (line : SaleOrderLine)
    (hline : Env.findLine (lineWrite env ids vals).1 lid = some line)
    (r : StockReservation)
    (hr : Env.reservationsOf (lineWrite env ids vals).1 lid = [r]) :
    r.price_unit = line.price_unit ∧ r.product_uom_qty = line.product_uom_qty := by
  by_cases hb : (test_block_on_reserve vals &&
      decide ((mappedReservations env ids).length > 0)) = true
  · unfold lineWrite at hok
    rw [if_pos hb] at hok
    exact absurd hok (by simp)
  · unfold lineWrite at hok hline hr
    rw [if_neg hb, if_pos hup] at hok hline hr
    have hlines := update_lines ids (superWrite env ids vals)
    have hline2 : (superWrite env ids vals).findLine lid = some line := by
      rw [← findLine_congr _ (superWrite env ids vals) hlines lid]
      exact hline
    have hsy := update_synced_of_mem ids (superWrite env ids vals) lid line
      hok hmem hline2
    have hrmem : r ∈ Env.reservationsOf
        (update_reservation_price_qty (superWrite env ids vals) ids).1 lid := by
      rw [hr]; exact List.mem_singleton.mpr rfl
    have hsplit := List.mem_filter.mp hrmem
    exact hsy r hsplit.1 (by simpa using hsplit.2)

/-- Records for the C2 witness. -/
def lineC2 : SaleOrderLine :=
  { id := 1, order_id := 1, state := "draft", product_id := some 50,
    product_uom := 7, product_uom_qty := 2, price_unit := 3, name := "L2",
    stock_owner_id := none, is_stock_reservable := false }

def resvC2 : StockReservation :=
  { id := 10, sale_line_id := 1, product_id := some 50, product_uom := 7,
    product_uom_qty := 9, date_validity := none, name := "R2", note := none,
    price_unit := 9, partner_id := 8, restrict_partner_id := none,
    group_id := none, reserve_called := true, release_called := false }

def envC2 : Env :=
  { products := [], rules := [], warehouses := [], groups := [],
    reservations := [resvC2], lines := [lineC2], orders := [], next_id := 100 }

def valsC2 : Vals :=
  { product_id := none, product_uom_id := none, type := none,
    price_unit := some 5, product_uom_qty := none, name := none }

def lineC2after : SaleOrderLine := { lineC2 with price_unit := 5 }

def resvC2after : StockReservation :=
  { resvC2 with price_unit := 5, product_uom_qty := 2 }

/-- Witness for C2: a concrete price update cascades onto the reservation. -/
theorem claim_C2_write_syncs_reservation_witness :
    test_update_on_reserve valsC2 = true ∧
    (lineWrite envC2 [1] valsC2).2 = none ∧
    (resvC2after.price_unit = lineC2after.price_unit ∧
      resvC2after.product_uom_qty = lineC2after.product_uom_qty) :=
  ⟨by decide, by decide,
   claim_C2_write_syncs_reservation envC2 [1] valsC2 (by decide) (by decide)
     1 (by decide) lineC2after (by decide) resvC2after (by decide)⟩

theorem update_errors : ∀ (ids : List Nat) (env : Env) (lid : Nat)
    (l : SaleOrderLine), lid ∈ ids → env.findLine lid = some l →
    1 < (Env.reservationsOf env lid).length →
    (update_reservation_price_qty env ids).2 = some severalReservationsMsg := by
  intro ids
  induction ids with
  | nil => intro env lid l hmem _ _; exact absurd hmem (List.not_mem_nil lid)
  | cons lid0 rest ih =>
      intro env lid l hmem hf hm
      unfold update_reservation_price_qty
      cases hstep : updateResForLine env lid0 with
      | mk env2 e =>
          cases e with
          | some msg =>
              dsimp only
              rw [updateResForLine_err_msg env lid0 msg (by rw [hstep])]
          | none =>
              dsimp only
              have hl := updateResForLine_lines env lid0
              rw [hstep] at hl
              rcases List.mem_cons.mp hmem with h1 | h2
              · subst h1
                have := updateResForLine_multi_err env lid l hf hm
                rw [hstep] at this
                exact absurd (congrArg Prod.snd this) (by simp)
              · have hf2 : env2.findLine lid = some l := by
                  rw [findLine_congr env2 env hl lid]; exact hf
                have hcnt := updateResForLine_resCount env lid0 lid
                rw [hstep] at hcnt
                exact ih env2 lid l h2 hf2 (by rw [hcnt]; exact hm)

theorem update_preserves_multi : ∀ (ids : List Nat) (env : Env) (lid : Nat),
    1 < (Env.reservationsOf env lid).length →
    Env.reservationsOf (update_reservation_price_qty env ids).1 lid
      = Env.reservationsOf env lid := by
  intro ids
  induction ids with
  | nil => intro env lid _; rfl
  | cons lid0 rest ih =>
      intro env lid hm
      unfold update_reservation_price_qty
      cases hstep : updateResForLine env lid0 with
      | mk env2 e =>
          cases e with
          | some msg =>
              dsimp only
              have h2 := updateResForLine_err_env env lid0 msg (by rw [hstep])
              rw [hstep] at h2
              have henv : env2 = env := h2
              rw [henv]
          | none =>
              dsimp only
              by_cases heq : lid0 = lid
              · subst heq
                cases hf : env.findLine lid0 with
                | none =>
                    have := updateResForLine_none_findLine env lid0 hf
                    rw [hstep] at this
                    have henv : env2 = env := congrArg Prod.fst this
                    rw [henv]
                    exact ih env lid0 hm
                | some l =>
                    have := updateResForLine_multi_err env lid0 l hf hm
                    rw [hstep] at this
                    exact absurd (congrArg Prod.snd this) (by simp)
              · have hres : Env.reservationsOf env2 lid = Env.reservationsOf env lid := by
                  have := updateResForLine_resOf_ne env lid0 lid
                    (fun hcc => heq hcc.symm)
                  rw [hstep] at this
                  exact this
                rw [ih env2 lid (by rw [hres]; exact hm), hres]

/-- Records for the C3 counterexample and witness: one line with two linked
reservations. -/
def lineC3 : SaleOrderLine :=
  { id := 1, order_id := 1, state := "draft", product_id := some 50,
    product_uom := 7, product_uom_qty := 2, price_unit := 3, name := "L3",
    stock_owner_id := none, is_stock_reservable := false }

def resvC3a : StockReservation :=
  { id := 10, sale_line_id := 1, product_id := some 50, product_uom := 7,
    product_uom_qty := 1, date_validity := none, name := "R3a", note := none,
    price_unit := 3, partner_id := 8, restrict_partner_id := none,
    group_id := none, reserve_called := true, release_called := false }

def resvC3b : StockReservation :=
  { id := 11, sale_line_id := 1, product_id := some 50, product_uom := 7,
    product_uom_qty := 1, date_validity := none, name := "R3b", note := none,
    price_unit := 3, partner_id := 8, restrict_partner_id := none,
    group_id := none, reserve_called := true, release_called := false }

def envC3 : Env :=
  { products := [], rules := [], warehouses := [], groups := [],
    reservations := [resvC3a, resvC3b], lines := [lineC3], orders := [],
    next_id := 100 }

def valsC3 : Vals :=
  { product_id := none, product_uom_id := none, type := none,
    price_unit := some 5, product_uom_qty := none, name := none }

def lineC3after : SaleOrderLine := { lineC3 with price_unit := 5 }

/-- Counterexample to C3 as stated: on a line with two linked reservations a
price update raises the `UserError`, but the raise happens after the host
write, so the line's `price_unit` has already changed from 3 to 5 at the
moment of the error. -/
theorem claim_C3_counterexample :
    (lineWrite envC3 [1] valsC3).2 = some severalReservationsMsg
  ∧ (Env.findLine (lineWrite envC3 [1] valsC3).1 1).map (fun l => l.price_unit)
      = some 5
  ∧ (Env.findLine envC3 1).map (fun l => l.price_unit) = some 3 := by decide

/-- C3 (amended): with `price_unit` or `product_uom_qty` present, no blocked
key, and some line carrying more than one reservation, `write` raises the
`UserError`; the raise happens after the delegated host write, so the lines'
fields are already updated, while the reservations of every line with more
than one reservation are themselves left unchanged. -/
theorem claim_C3_multi_reservation_error (env : Env) (ids : List Nat)
    (vals : Vals) (hup : test_update_on_reserve vals = true)
    (hnb : test_block_on_reserve vals = false)
    (lid : Nat) (hmem : lid ∈ ids) (l : SaleOrderLine)
    (hl : Env.findLine (superWrite env ids vals) lid = some l)
    (hmulti : 1 < (Env.reservationsOf env lid).length) :
    (lineWrite env ids vals).2 = some severalReservationsMsg
  ∧ (lineWrite env ids vals).1.lines = (superWrite env ids vals).lines
  ∧ ∀ lid2 ∈ ids, 1 < (Env.reservationsOf env lid2).length →
      Env.reservationsOf (lineWrite env ids vals).1 lid2
        = Env.reservationsOf env lid2 := by
  have hb : ¬((test_block_on_reserve vals &&
      decide ((mappedReservations env ids).length > 0)) = true) := by
    rw [hnb]; simp
  unfold lineWrite
  rw [if_neg hb, if_pos hup]
  refine ⟨?_, ?_, ?_⟩
  · exact update_errors ids (superWrite env ids vals) lid l hmem hl hmulti
  · exact update_lines ids (superWrite env ids vals)
  · intro lid2 _ hm2
    exact update_preserves_multi ids (superWrite env ids vals) lid2 hm2

/-- Witness for the amended C3 at the concrete two-reservation input. -/
theorem claim_C3_multi_reservation_error_witness :
    (lineWrite envC3 [1] valsC3).2 = some severalReservationsMsg
  ∧ (lineWrite envC3 [1] valsC3).1.lines = (superWrite envC3 [1] valsC3).lines
  ∧ ∀ lid2 ∈ [1], 1 < (Env.reservationsOf envC3 lid2).length →
      Env.reservationsOf (lineWrite envC3 [1] valsC3).1 lid2
        = Env.reservationsOf envC3 lid2 :=
  claim_C3_multi_reservation_error envC3 [1] valsC3 (by decide) (by decide)
    1 (by decide) lineC3after (by decide) (by decide)

/-! Lemmas about the two-tier rule lookup. -/

theorem ruleLt_iff (a b : ProcurementRule) :
    ruleLt a b = true ↔
      (a.route_sequence < b.route_sequence ∨
        (a.route_sequence = b.route_sequence ∧ a.sequence < b.sequence)) := by
  simp [ruleLt]

theorem ruleLe_iff (a b : ProcurementRule) :
    ruleLe a b = true ↔
      (a.route_sequence < b.route_sequence ∨
        (a.route_sequence = b.route_sequence ∧ a.sequence ≤ b.sequence)) := by
  simp [ruleLe]

theorem ruleLe_refl (a : ProcurementRule) : ruleLe a a = true := by
  rw [ruleLe_iff]; omega

theorem ruleLe_trans (a b c : ProcurementRule) (h1 : ruleLe a b = true)
    (h2 : ruleLe b c = true) : ruleLe a c = true := by
  rw [ruleLe_iff] at h1 h2 ⊢; omega

theorem ruleLe_of_lt (a b : ProcurementRule) (h : ruleLt a b = true) :
    ruleLe a b = true := by
  rw [ruleLt_iff] at h; rw [ruleLe_iff]; omega

theorem ruleLe_of_not_lt (a b : ProcurementRule) (h : ¬(ruleLt a b = true)) :
    ruleLe b a = true := by
  rw [ruleLt_iff] at h; rw [ruleLe_iff]; omega

theorem foldlMin_mem : ∀ (xs : List ProcurementRule) (x : ProcurementRule),
    xs.foldl (fun best r => if ruleLt r best then r else best) x ∈ x :: xs := by
  intro xs
  induction xs with
  | nil => intro x; exact List.mem_singleton.mpr rfl
  | cons y ys ih =>
      intro x
      rw [List.foldl_cons]
      by_cases hlt : ruleLt y x = true
      · rw [if_pos hlt]
        rcases List.mem_cons.mp (ih y) with h | h
        · rw [h]; exact List.mem_cons_of_mem x (List.mem_cons_self y ys)
        · exact List.mem_cons_of_mem x (List.mem_cons_of_mem y h)
      · rw [if_neg hlt]
        rcases List.mem_cons.mp (ih x) with h | h
        · rw [h]; exact List.mem_cons_self x (y :: ys)
        · exact List.mem_cons_of_mem x (List.mem_cons_of_mem y h)

theorem foldlMin_le : ∀ (xs : List ProcurementRule) (x : ProcurementRule),
    ∀ s ∈ x :: xs,
      ruleLe (xs.foldl (fun best r => if ruleLt r best then r else best) x) s
        = true := by
  intro xs
  induction xs with
  | nil =>
      intro x s hs
      rw [List.mem_singleton.mp hs]
      exact ruleLe_refl _
  | cons y ys ih =>
      intro x s hs
      rw [List.foldl_cons]
      by_cases hlt : ruleLt y x = true
      · rw [if_pos hlt]
        rcases List.mem_cons.mp hs with h | h
        · rw [h]
          exact ruleLe_trans _ y x (ih y y (List.mem_cons_self y ys))
            (ruleLe_of_lt y x hlt)
        · exact ih y s h
      · rw [if_neg hlt]
        rcases List.mem_cons.mp hs with h | h
        · rw [h]; exact ih x x (List.mem_cons_self x ys)
        · rcases List.mem_cons.mp h with h2 | h2
          · rw [h2]
            exact ruleLe_trans _ x y (ih x x (List.mem_cons_self x ys))
              (ruleLe_of_not_lt y x hlt)
          · exact ih x s (List.mem_cons_of_mem x h2)

theorem searchFirst_none_iff (rules : List ProcurementRule)
    (p : ProcurementRule → Bool) :
    searchFirst rules p = none ↔ rules.filter p = [] := by
  unfold searchFirst
  cases rules.filter p with
  | nil => simp
  | cons x xs => simp

theorem searchFirst_some (rules : List ProcurementRule)
    (p : ProcurementRule → Bool) (r : ProcurementRule)
    (h : searchFirst rules p = some r) :
    r ∈ rules.filter p ∧ ∀ s ∈ rules.filter p, ruleLe r s = true := by
  unfold searchFirst at h
  cases hf : rules.filter p with
  | nil => rw [hf] at h; exact absurd h (by simp)
  | cons x xs =>
      rw [hf] at h
      have hr := Option.some.inj h
      rw [← hr]
      exact ⟨foldlMin_mem xs x, foldlMin_le xs x⟩

/-- The first-tier candidate set of `_get_line_rule`: rules whose route is
among the product's (and its category's) routes. -/
def tierOneRules (env : Env) (line : SaleOrderLine) : List ProcurementRule :=
  env.rules.filter (ruleRoutePred (productRouteIds env line))

/-- The fallback candidate set of `_get_line_rule`: rules for the order's
warehouse (or none) whose route is a warehouse route. -/
def tierTwoRules (env : Env) (line : SaleOrderLine) : List ProcurementRule :=
  env.rules.filter
    (ruleWarehousePred (lineOrderWarehouse env line) (warehouseRouteIds env line))

/-- C5: `_get_line_rule` is a two-tier, priority-ordered lookup: it returns
`False` (here `none`) exactly when both candidate sets are empty, and any
returned rule is a least element (by `route_sequence, sequence`) of the first
tier when that tier is non-empty, otherwise of the fallback tier. -/
theorem claim_C5_get_line_rule (env : Env) (line : SaleOrderLine) :
    (get_line_rule env line = none ↔
      tierOneRules env line = [] ∧ tierTwoRules env line = [])
  ∧ ∀ r, get_line_rule env line = some r →
      ((tierOneRules env line ≠ [] ∧ r ∈ tierOneRules env line ∧
          ∀ s ∈ tierOneRules env line, ruleLe r s = true) ∨
       (tierOneRules env line = [] ∧ r ∈ tierTwoRules env line ∧
          ∀ s ∈ tierTwoRules env line, ruleLe r s = true)) := by
  have hun : get_line_rule env line =
      match searchFirst env.rules (ruleRoutePred (productRouteIds env line)) with
      | some r => some r
      | none => searchFirst env.rules
          (ruleWarehousePred (lineOrderWarehouse env line)
            (warehouseRouteIds env line)) := rfl
  rw [hun]
  cases h1 : searchFirst env.rules (ruleRoutePred (productRouteIds env line)) with
  | none =>
      have ht1 : tierOneRules env line = [] := (searchFirst_none_iff _ _).mp h1
      dsimp only
      constructor
      · rw [searchFirst_none_iff]
        unfold tierTwoRules
        simp [ht1]
      · intro r hr
        exact Or.inr ⟨ht1, searchFirst_some _ _ r hr⟩
  | some r1 =>
      have ht1 : tierOneRules env line ≠ [] := by
        intro hnil
        have : searchFirst env.rules (ruleRoutePred (productRouteIds env line))
            = none := (searchFirst_none_iff _ _).mpr hnil
        rw [h1] at this
        exact absurd this (by simp)
      dsimp only
      constructor
      · constructor
        · intro hc; exact absurd hc (by simp)
        · rintro ⟨hc, _⟩; exact absurd hc ht1
      · intro r hr
        have hrr : r1 = r := Option.some.inj hr
        exact Or.inl ⟨ht1, hrr ▸ searchFirst_some _ _ r1 h1⟩

/-- Records for the C5 witness: two first-tier rules with different
`route_sequence`. -/
def productC5 : Product :=
  { id := 50, type := "product", route_ids := [1], categ_total_route_ids := [] }

def orderC5 : SaleOrder :=
  { id := 1, name := "SO5", state := "draft", warehouse_id := none,
    picking_policy := "direct", partner_shipping_id := 8,
    procurement_group_id := none, has_stock_reservation := false,
    is_stock_reservable := false }

def lineC5 : SaleOrderLine :=
  { id := 2, order_id := 1, state := "draft", product_id := some 50,
    product_uom := 7, product_uom_qty := 4, price_unit := 9, name := "L5",
    stock_owner_id := none, is_stock_reservable := false }

def ruleC5a : ProcurementRule :=
  { id := 1, route_id := some 1, warehouse_id := none, route_sequence := 2,
    sequence := 0, procure_method := "make_to_stock" }

def ruleC5b : ProcurementRule :=
  { id := 2, route_id := some 1, warehouse_id := none, route_sequence := 1,
    sequence := 0, procure_method := "make_to_stock" }

def envC5 : Env :=
  { products := [productC5], rules := [ruleC5a, ruleC5b], warehouses := [],
    groups := [], reservations := [], lines := [lineC5], orders := [orderC5],
    next_id := 100 }

/-- Witness for C5: the lookup picks the rule with the least
`route_sequence` among the first-tier candidates. -/
theorem claim_C5_get_line_rule_witness :
    get_line_rule envC5 lineC5 = some ruleC5b ∧
    ((tierOneRules envC5 lineC5 ≠ [] ∧ ruleC5b ∈ tierOneRules envC5 lineC5 ∧
        ∀ s ∈ tierOneRules envC5 lineC5, ruleLe ruleC5b s = true) ∨
     (tierOneRules envC5 lineC5 = [] ∧ ruleC5b ∈ tierTwoRules envC5 lineC5 ∧
        ∀ s ∈ tierTwoRules envC5 lineC5, ruleLe ruleC5b s = true)) :=
  ⟨by decide, (claim_C5_get_line_rule envC5 lineC5).2 ruleC5b (by decide)⟩

/-! Lemmas about `acquire_stock_reservation`. -/

/-- The reservation fields copied from a sale order line by
`_prepare_stock_reservation`. -/
def CopiedFrom (s : StockReservation) (line : SaleOrderLine) : Prop :=
  s.sale_line_id = line.id ∧ s.product_id = line.product_id ∧
  s.product_uom = line.product_uom ∧ s.product_uom_qty = line.product_uom_qty ∧
  s.price_unit = line.price_unit

/-- `line.is_stock_reservable` looked up through the environment. -/
def reservableInEnv (env : Env) (lid : Nat) : Bool :=
  match env.findLine lid with
  | some line => line.is_stock_reservable
  | none => false

theorem findLine_id (env : Env) (lid : Nat) (l : SaleOrderLine)
    (h : env.findLine lid = some l) : l.id = lid := by
  have := List.find?_some h
  simpa using this

theorem findOrder_id (env : Env) (oid : Nat) (o : SaleOrder)
    (h : env.findOrder oid = some o) : o.id = oid := by
  have := List.find?_some h
  simpa using this

theorem ensureGroup_lines (env : Env) (order : SaleOrder) :
    (ensureGroup env order).1.lines = env.lines := by
  unfold ensureGroup
  cases order.procurement_group_id <;> rfl

theorem ensureGroup_reservations (env : Env) (order : SaleOrder) :
    (ensureGroup env order).1.reservations = env.reservations := by
  unfold ensureGroup
  cases order.procurement_group_id <;> rfl

theorem ensureGroup_next_id_le (env : Env) (order : SaleOrder) :
    env.next_id ≤ (ensureGroup env order).1.next_id := by
  unfold ensureGroup
  cases order.procurement_group_id with
  | none => exact Nat.le_succ _
  | some gid => exact Nat.le_refl _

theorem ensureGroup_findOrder_mono (env : Env) (order : SaleOrder) (oid : Nat)
    (o : SaleOrder) (h : env.findOrder oid = some o) :
    ∃ o2, (ensureGroup env order).1.findOrder oid = some o2 ∧
      (o.procurement_group_id.isSome = true →
        o2.procurement_group_id.isSome = true) := by
  unfold ensureGroup
  cases order.procurement_group_id with
  | some gid => exact ⟨o, h, fun hs => hs⟩
  | none =>
      dsimp only
      have hmap : Env.findOrder
          { env with
            groups := env.groups ++
              [{ id := env.next_id, name := order.name,
                 move_type := order.picking_policy, sale_id := order.id,
                 partner_id := order.partner_shipping_id }]
            orders := env.orders.map
              (fun o => if o.id = order.id then
                  { o with procurement_group_id := some env.next_id } else o)
            next_id := env.next_id + 1 } oid
          = (env.findOrder oid).map
              (fun o => if o.id = order.id then
                  { o with procurement_group_id := some env.next_id } else o) := by
        unfold Env.findOrder
        exact find?_map_of_pred _ _ (fun x => by
          by_cases hx : x.id = order.id
          · simp [hx]
          · simp [hx]) env.orders
      rw [hmap, h]
      by_cases ho : o.id = order.id
      · exact ⟨_, rfl, fun _ => by simp [ho]⟩
      · exact ⟨_, rfl, fun hs => by simpa [ho] using hs⟩

theorem ensureGroup_sets_group (env : Env) (order : SaleOrder) (oid : Nat)
    (h : env.findOrder oid = some order) :
    ∃ o2, (ensureGroup env order).1.findOrder oid = some o2 ∧
      o2.procurement_group_id.isSome = true := by
  unfold ensureGroup
  cases hg : order.procurement_group_id with
  | some gid => exact ⟨order, h, by simp [hg]⟩
  | none =>
      dsimp only
      have hmap : Env.findOrder
          { env with
            groups := env.groups ++
              [{ id := env.next_id, name := order.name,
                 move_type := order.picking_policy, sale_id := order.id,
                 partner_id := order.partner_shipping_id }]
            orders := env.orders.map
              (fun o => if o.id = order.id then
                  { o with procurement_group_id := some env.next_id } else o)
            next_id := env.next_id + 1 } oid
          = (env.findOrder oid).map
              (fun o => if o.id = order.id then
                  { o with procurement_group_id := some env.next_id } else o) := by
        unfold Env.findOrder
        exact find?_map_of_pred _ _ (fun x => by
          by_cases hx : x.id = order.id
          · simp [hx]
          · simp [hx]) env.orders
      rw [hmap, h]
      exact ⟨_, rfl, by simp⟩

theorem prepare_lines (env : Env) (line : SaleOrderLine) :
    (prepare_stock_reservation env line none none).1.lines = env.lines := by
  unfold prepare_stock_reservation
  cases env.findOrder line.order_id with
  | none => rfl
  | some order => exact ensureGroup_lines env order

theorem prepare_reservations (env : Env) (line : SaleOrderLine) :
    (prepare_stock_reservation env line none none).1.reservations
      = env.reservations := by
  unfold prepare_stock_reservation
  cases env.findOrder line.order_id with
  | none => rfl
  | some order => exact ensureGroup_reservations env order

theorem prepare_next_id_le (env : Env) (line : SaleOrderLine) :
    env.next_id ≤ (prepare_stock_reservation env line none none).1.next_id := by
  unfold prepare_stock_reservation
  cases env.findOrder line.order_id with
  | none => exact Nat.le_refl _
  | some order => exact ensureGroup_next_id_le env order

theorem prepare_resv (env : Env) (line : SaleOrderLine) :
    (prepare_stock_reservation env line none none).2.id
        = (prepare_stock_reservation env line none none).1.next_id
  ∧ CopiedFrom (prepare_stock_reservation env line none none).2 line
  ∧ (prepare_stock_reservation env line none none).2.reserve_called = false
  ∧ (prepare_stock_reservation env line none none).2.release_called = false := by
  unfold prepare_stock_reservation
  cases env.findOrder line.order_id with
  | none => exact ⟨rfl, ⟨rfl, rfl, rfl, rfl, rfl⟩, rfl, rfl⟩
  | some order => exact ⟨rfl, ⟨rfl, rfl, rfl, rfl, rfl⟩, rfl, rfl⟩

theorem prepare_findOrder_mono (env : Env) (line : SaleOrderLine) (oid : Nat)
    (o : SaleOrder) (h : env.findOrder oid = some o) :
    ∃ o2, (prepare_stock_reservation env line none none).1.findOrder oid
        = some o2 ∧
      (o.procurement_group_id.isSome = true →
        o2.procurement_group_id.isSome = true) := by
  unfold prepare_stock_reservation
  cases env.findOrder line.order_id with
  | none => exact ⟨o, h, fun hs => hs⟩
  | some order => exact ensureGroup_findOrder_mono env order oid o h

theorem prepare_sets_group (env : Env) (line : SaleOrderLine)
    (order : SaleOrder) (h : env.findOrder line.order_id = some order) :
    ∃ o2, (prepare_stock_reservation env line none none).1.findOrder
        line.order_id = some o2 ∧ o2.procurement_group_id.isSome = true := by
  unfold prepare_stock_reservation
  cases hfo : env.findOrder line.order_id with
  | none => rw [hfo] at h; exact absurd h (by simp)
  | some order2 =>
      have : order2 = order := by
        rw [hfo] at h; exact Option.some.inj h
      subst this
      exact ensureGroup_sets_group env order2 line.order_id hfo

theorem createResv_reservations (env : Env) (line : SaleOrderLine) :
    (createResv env line).1.reservations
      = env.reservations ++ [(createResv env line).2] := by
  unfold createResv
  dsimp only
  rw [prepare_reservations]

theorem createResv_lines (env : Env) (line : SaleOrderLine) :
    (createResv env line).1.lines = env.lines := by
  unfold createResv
  dsimp only
  rw [prepare_lines]

theorem createResv_id_bounds (env : Env) (line : SaleOrderLine) :
    env.next_id ≤ (createResv env line).2.id
  ∧ (createResv env line).2.id < (createResv env line).1.next_id := by
  unfold createResv
  dsimp only
  rw [(prepare_resv env line).1]
  exact ⟨prepare_next_id_le env line, Nat.lt_succ_self _⟩

theorem createResv_copied (env : Env) (line : SaleOrderLine) :
    CopiedFrom (createResv env line).2 line
  ∧ (createResv env line).2.reserve_called = false
  ∧ (createResv env line).2.release_called = false := by
  unfold createResv
  dsimp only
  exact ⟨(prepare_resv env line).2.1, (prepare_resv env line).2.2.1,
    (prepare_resv env line).2.2.2⟩

theorem createResv_findOrder_mono (env : Env) (line : SaleOrderLine) (oid : Nat)
    (o : SaleOrder) (h : env.findOrder oid = some o) :
    ∃ o2, (createResv env line).1.findOrder oid = some o2 ∧
      (o.procurement_group_id.isSome = true →
        o2.procurement_group_id.isSome = true) := by
  rcases prepare_findOrder_mono env line oid o h with ⟨o2, ho2, hmono⟩
  exact ⟨o2, ho2, hmono⟩

theorem createResv_sets_group (env : Env) (line : SaleOrderLine)
    (order : SaleOrder) (h : env.findOrder line.order_id = some order) :
    ∃ o2, (createResv env line).1.findOrder line.order_id = some o2 ∧
      o2.procurement_group_id.isSome = true := by
  rcases prepare_sets_group env line order h with ⟨o2, ho2, hsome⟩
  exact ⟨o2, ho2, hsome⟩

theorem acquireLoop_cons (env : Env) (lid : Nat) (rest : List Nat)
    (created : List Nat) :
    acquireLoop env (lid :: rest) created
      = match env.findLine lid with
        | none => acquireLoop env rest created
        | some line =>
            if line.is_stock_reservable then
              acquireLoop (createResv env line).1 rest
                (created ++ [(createResv env line).2.id])
            else acquireLoop env rest created := rfl

theorem acquireLoop_spec : ∀ (ids : List Nat) (env : Env) (created : List Nat),
    ∃ S : List StockReservation,
      (acquireLoop env ids created).1.reservations = env.reservations ++ S
    ∧ (acquireLoop env ids created).2 = created ++ S.map (fun s => s.id)
    ∧ (acquireLoop env ids created).1.lines = env.lines
    ∧ env.next_id ≤ (acquireLoop env ids created).1.next_id
    ∧ (∀ s ∈ S, env.next_id ≤ s.id ∧
        s.id < (acquireLoop env ids created).1.next_id ∧
        s.reserve_called = false)
    ∧ S.map (fun s => s.sale_line_id) = ids.filter (reservableInEnv env)
    ∧ (∀ s ∈ S, ∃ lid ∈ ids, ∃ line, env.findLine lid = some line ∧
        line.is_stock_reservable = true ∧ CopiedFrom s line) := by
  intro ids
  induction ids with
  | nil =>
      intro env created
      exact ⟨[], by simp [acquireLoop], by simp [acquireLoop],
        rfl, Nat.le_refl _, by simp, rfl, by simp⟩
  | cons lid rest ih =>
      intro env created
      cases hf : env.findLine lid with
      | none =>
          have hstep : acquireLoop env (lid :: rest) created
              = acquireLoop env rest created := by
            rw [acquireLoop_cons, hf]
          have hfilter : (lid :: rest).filter (reservableInEnv env)
              = rest.filter (reservableInEnv env) := by
            simp [List.filter_cons, reservableInEnv, hf]
          rcases ih env created with ⟨S, h1, h2, h3, h4, h5, h6, h7⟩
          refine ⟨S, ?_, ?_, ?_, ?_, ?_, ?_, ?_⟩
          · rw [hstep]; exact h1
          · rw [hstep]; exact h2
          · rw [hstep]; exact h3
          · rw [hstep]; exact h4
          · rw [hstep]; exact h5
          · rw [hfilter]; exact h6
          · intro s hs
            rcases h7 s hs with ⟨lid2, hlid2, line2, hline2, hres2, hcop⟩
            exact ⟨lid2, List.mem_cons_of_mem lid hlid2, line2, hline2, hres2, hcop⟩
      | some line =>
          by_cases hres : line.is_stock_reservable = true
          · have hstep : acquireLoop env (lid :: rest) created
                = acquireLoop (createResv env line).1 rest
                    (created ++ [(createResv env line).2.id]) := by
              rw [acquireLoop_cons, hf]
              show (if line.is_stock_reservable = true then
                  acquireLoop (createResv env line).1 rest
                    (created ++ [(createResv env line).2.id])
                else acquireLoop env rest created)
                = acquireLoop (createResv env line).1 rest
                    (created ++ [(createResv env line).2.id])
              rw [if_pos hres]
            have hfilter : (lid :: rest).filter (reservableInEnv env)
                = lid :: rest.filter (reservableInEnv env) := by
              simp [List.filter_cons, reservableInEnv, hf, hres]
            have hresfun : reservableInEnv (createResv env line).1
                = reservableInEnv env := by
              funext l
              unfold reservableInEnv
              rw [findLine_congr (createResv env line).1 env
                (createResv_lines env line) l]
            have hfl : ∀ l, (createResv env line).1.findLine l = env.findLine l :=
              fun l => findLine_congr (createResv env line).1 env
                (createResv_lines env line) l
            have hbounds := createResv_id_bounds env line
            rcases ih (createResv env line).1
                (created ++ [(createResv env line).2.id]) with
              ⟨S2, h1, h2, h3, h4, h5, h6, h7⟩
            refine ⟨(createResv env line).2 :: S2, ?_, ?_, ?_, ?_, ?_, ?_, ?_⟩
            · rw [hstep, h1, createResv_reservations]
              simp
            · rw [hstep, h2]
              simp
            · rw [hstep, h3, createResv_lines]
            · rw [hstep]
              exact Nat.le_trans (Nat.le_trans hbounds.1 (Nat.le_of_lt hbounds.2)) h4
            · intro s hs
              rcases List.mem_cons.mp hs with hh | hh
              · subst hh
                refine ⟨hbounds.1, ?_, (createResv_copied env line).2.1⟩
                rw [hstep]
                exact Nat.lt_of_lt_of_le hbounds.2 h4
              · rcases h5 s hh with ⟨ha, hb, hc⟩
                refine ⟨?_, ?_, hc⟩
                · exact Nat.le_trans
                    (Nat.le_trans hbounds.1 (Nat.le_of_lt hbounds.2)) ha
                · rw [hstep]; exact hb
            · rw [hfilter]
              have hslid : (createResv env line).2.sale_line_id = lid := by
                rw [(createResv_copied env line).1.1]
                exact findLine_id env lid line hf
              simp only [List.map_cons, hslid]
              rw [h6, hresfun]
            · intro s hs
              rcases List.mem_cons.mp hs with hh | hh
              · subst hh
                exact ⟨lid, List.mem_cons_self lid rest, line, hf, hres,
                  (createResv_copied env line).1⟩
              · rcases h7 s hh with ⟨lid2, hlid2, line2, hline2, hres2, hcop⟩
                rw [hfl lid2] at hline2
                exact ⟨lid2, List.mem_cons_of_mem lid hlid2, line2, hline2,
                  hres2, hcop⟩
          · have hstep : acquireLoop env (lid :: rest) created
                = acquireLoop env rest created := by
              rw [acquireLoop_cons, hf]
              show (if line.is_stock_reservable = true then
                  acquireLoop (createResv env line).1 rest
                    (created ++ [(createResv env line).2.id])
                else acquireLoop env rest created)
                = acquireLoop env rest created
              rw [if_neg hres]
            have hfilter : (lid :: rest).filter (reservableInEnv env)
                = rest.filter (reservableInEnv env) := by
              simp only [Bool.not_eq_true] at hres
              simp [List.filter_cons, reservableInEnv, hf, hres]
            rcases ih env created with ⟨S, h1, h2, h3, h4, h5, h6, h7⟩
            refine ⟨S, ?_, ?_, ?_, ?_, ?_, ?_, ?_⟩
            · rw [hstep]; exact h1
            · rw [hstep]; exact h2
            · rw [hstep]; exact h3
            · rw [hstep]; exact h4
            · rw [hstep]; exact h5
            · rw [hfilter]; exact h6
            · intro s hs
              rcases h7 s hs with ⟨lid2, hlid2, line2, hline2, hres2, hcop⟩
              exact ⟨lid2, List.mem_cons_of_mem lid hlid2, line2, hline2,
                hres2, hcop⟩

theorem map_id_of_mem {α : Type} (f : α → α) (l : List α)
    (h : ∀ a ∈ l, f a = a) : l.map f = l := by
  induction l with
  | nil => rfl
  | cons x xs ih =>
      rw [List.map_cons, h x (List.mem_cons_self x xs),
        ih (fun a ha => h a (List.mem_cons_of_mem x ha))]

theorem map_congr_mem {α β : Type} (f g : α → β) (l : List α)
    (h : ∀ a ∈ l, f a = g a) : l.map f = l.map g := by
  induction l with
  | nil => rfl
  | cons x xs ih =>
      rw [List.map_cons, List.map_cons, h x (List.mem_cons_self x xs),
        ih (fun a ha => h a (List.mem_cons_of_mem x ha))]

theorem acquireLoop_order_mono : ∀ (ids : List Nat) (env : Env)
    (created : List Nat) (oid : Nat) (o : SaleOrder),
    env.findOrder oid = some o →
    ∃ o2, (acquireLoop env ids created).1.findOrder oid = some o2 ∧
      (o.procurement_group_id.isSome = true →
        o2.procurement_group_id.isSome = true) := by
  intro ids
  induction ids with
  | nil => intro env created oid o h; exact ⟨o, h, fun hs => hs⟩
  | cons lid rest ih =>
      intro env created oid o h
      cases hf : env.findLine lid with
      | none =>
          rw [acquireLoop_cons, hf]
          exact ih env created oid o h
      | some line =>
          by_cases hres : line.is_stock_reservable = true
          · rw [acquireLoop_cons, hf]
            show ∃ o2, ((if line.is_stock_reservable = true then
                acquireLoop (createResv env line).1 rest
                  (created ++ [(createResv env line).2.id])
              else acquireLoop env rest created)).1.findOrder oid = some o2 ∧ _
            rw [if_pos hres]
            rcases createResv_findOrder_mono env line oid o h with ⟨o1, ho1, hm1⟩
            rcases ih (createResv env line).1
                (created ++ [(createResv env line).2.id]) oid o1 ho1 with
              ⟨o2, ho2, hm2⟩
            exact ⟨o2, ho2, fun hs => hm2 (hm1 hs)⟩
          · rw [acquireLoop_cons, hf]
            show ∃ o2, ((if line.is_stock_reservable = true then
                acquireLoop (createResv env line).1 rest
                  (created ++ [(createResv env line).2.id])
              else acquireLoop env rest created)).1.findOrder oid = some o2 ∧ _
            rw [if_neg hres]
            exact ih env created oid o h

theorem acquireLoop_group : ∀ (ids : List Nat) (env : Env) (created : List Nat)
    (lid : Nat) (line : SaleOrderLine) (order : SaleOrder),
    lid ∈ ids → env.findLine lid = some line →
    line.is_stock_reservable = true →
    env.findOrder line.order_id = some order →
    ∃ o2, (acquireLoop env ids created).1.findOrder line.order_id = some o2 ∧
      o2.procurement_group_id.isSome = true := by
  intro ids
  induction ids with
  | nil => intro env created lid line order hmem _ _ _
           exact absurd hmem (List.not_mem_nil lid)
  | cons lid0 rest ih =>
      intro env created lid line order hmem hline hres hord
      cases hf0 : env.findLine lid0 with
      | none =>
          rw [acquireLoop_cons, hf0]
          rcases List.mem_cons.mp hmem with h1 | h2
          · subst h1
            rw [hf0] at hline
            exact absurd hline (by simp)
          · exact ih env created lid line order h2 hline hres hord
      | some line0 =>
          by_cases hres0 : line0.is_stock_reservable = true
          · rw [acquireLoop_cons, hf0]
            show ∃ o2, ((if line0.is_stock_reservable = true then
                acquireLoop (createResv env line0).1 rest
                  (created ++ [(createResv env line0).2.id])
              else acquireLoop env rest created)).1.findOrder line.order_id
                = some o2 ∧ _
            rw [if_pos hres0]
            have hfl : ∀ l, (createResv env line0).1.findLine l = env.findLine l :=
              fun l => findLine_congr (createResv env line0).1 env
                (createResv_lines env line0) l
            rcases List.mem_cons.mp hmem with h1 | h2
            · subst h1
              have hsame : line0 = line := by
                rw [hf0] at hline; exact Option.some.inj hline
              subst hsame
              rcases createResv_sets_group env line0 order hord with ⟨o1, ho1, hs1⟩
              rcases acquireLoop_order_mono rest (createResv env line0).1
                  (created ++ [(createResv env line0).2.id]) line0.order_id o1
                  ho1 with ⟨o2, ho2, hm2⟩
              exact ⟨o2, ho2, hm2 hs1⟩
            · rcases createResv_findOrder_mono env line0 line.order_id order
                  hord with ⟨o1, ho1, _⟩
              exact ih (createResv env line0).1
                (created ++ [(createResv env line0).2.id]) lid line o1 h2
                (by rw [hfl]; exact hline) hres ho1
          · rw [acquireLoop_cons, hf0]
            show ∃ o2, ((if line0.is_stock_reservable = true then
                acquireLoop (createResv env line0).1 rest
                  (created ++ [(createResv env line0).2.id])
              else acquireLoop env rest created)).1.findOrder line.order_id
                = some o2 ∧ _
            rw [if_neg hres0]
            rcases List.mem_cons.mp hmem with h1 | h2
            · subst h1
              have hsame : line0 = line := by
                rw [hf0] at hline; exact Option.some.inj hline
              subst hsame
              exact absurd hres hres0
            · exact ih env created lid line order h2 hline hres hord

theorem acquire_spec (env : Env) (ids : List Nat)
    (hWF : ∀ r ∈ env.reservations, r.id < env.next_id) :
    ∃ S : List StockReservation,
      (acquire_stock_reservation env ids).1.reservations
        = env.reservations ++ S.map (fun s => { s with reserve_called := true })
    ∧ (acquire_stock_reservation env ids).1.lines = env.lines
    ∧ (∀ s ∈ S, env.next_id ≤ s.id)
    ∧ S.map (fun s => s.sale_line_id) = ids.filter (reservableInEnv env)
    ∧ (∀ s ∈ S, ∃ lid ∈ ids, ∃ line, env.findLine lid = some line ∧
        line.is_stock_reservable = true ∧ CopiedFrom s line)
    ∧ env.next_id ≤ (acquire_stock_reservation env ids).1.next_id
    ∧ (∀ r ∈ (acquire_stock_reservation env ids).1.reservations,
        r.id < (acquire_stock_reservation env ids).1.next_id) := by
  rcases acquireLoop_spec ids env [] with ⟨S, h1, h2, h3, h4, h5, h6, h7⟩
  have hcreated : (acquireLoop env ids []).2 = S.map (fun s => s.id) := by
    simpa using h2
  have hresv : (acquire_stock_reservation env ids).1.reservations
      = env.reservations ++
        S.map (fun s => { s with reserve_called := true }) := by
    show ((acquireLoop env ids []).1.reservations.map
        (fun r => if r.id ∈ (acquireLoop env ids []).2 then
            { r with reserve_called := true } else r))
      = env.reservations ++ S.map (fun s => { s with reserve_called := true })
    rw [h1, List.map_append]
    congr 1
    · apply map_id_of_mem
      intro r hr
      have hnotin : r.id ∉ (acquireLoop env ids []).2 := by
        rw [hcreated]
        intro hin
        rcases List.mem_map.mp hin with ⟨s, hs, hsid⟩
        have := (h5 s hs).1
        have := hWF r hr
        omega
      rw [if_neg hnotin]
    · apply map_congr_mem
      intro s hs
      have hin : s.id ∈ (acquireLoop env ids []).2 := by
        rw [hcreated]
        exact List.mem_map.mpr ⟨s, hs, rfl⟩
      rw [if_pos hin]
  refine ⟨S, hresv, h3, fun s hs => (h5 s hs).1, h6, h7, h4, ?_⟩
  intro r hr
  rw [hresv] at hr
  rcases List.mem_append.mp hr with hold | hnew
  · exact Nat.lt_of_lt_of_le (hWF r hold) h4
  · rcases List.mem_map.mp hnew with ⟨s, hs, hsid⟩
    have := (h5 s hs).2.1
    rw [← hsid]
    exact this

theorem acquire_group (env : Env) (ids : List Nat) (lid : Nat)
    (line : SaleOrderLine) (order : SaleOrder) (hmem : lid ∈ ids)
    (hline : env.findLine lid = some line)
    (hres : line.is_stock_reservable = true)
    (hord : env.findOrder line.order_id = some order) :
    ∃ o2, (acquire_stock_reservation env ids).1.findOrder line.order_id
        = some o2 ∧ o2.procurement_group_id.isSome = true := by
  rcases acquireLoop_group ids env [] lid line order hmem hline hres hord with
    ⟨o2, h, hs⟩
  exact ⟨o2, h, hs⟩

theorem acquire_lines (env : Env) (ids : List Nat) :
    (acquire_stock_reservation env ids).1.lines = env.lines := by
  show (acquireLoop env ids []).1.lines = env.lines
  rcases acquireLoop_spec ids env [] with ⟨S, _, _, h3, _⟩
  exact h3

theorem release_marks (env : Env) (ids : List Nat) :
    (release_stock_reservation env ids).2 = true
  ∧ ∀ r ∈ (release_stock_reservation env ids).1.reservations,
      r.sale_line_id ∈ ids → r.release_called = true := by
  refine ⟨rfl, ?_⟩
  intro r hr hin
  unfold release_stock_reservation at hr
  dsimp only at hr
  rcases List.mem_map.mp hr with ⟨r0, hr0, hfr⟩
  by_cases h0 : r0.sale_line_id ∈ ids
  · rw [if_pos h0] at hfr
    rw [← hfr]
  · rw [if_neg h0] at hfr
    rw [← hfr] at hin
    exact absurd hin h0

/-- C6: `acquire_stock_reservation` returns `True` and creates, for each line
of the recordset, exactly one reservation when the line is reservable and none
when it is not, copying product, unit of measure, quantity and unit price from
the line, marking every created reservation as reserved, and ensuring the
order's procurement group exists; `release_stock_reservation` returns `True`
and releases every reservation linked to the lines. -/
theorem claim_C6_acquire_release (env : Env) (ids : List Nat)
    (hWF : ∀ r ∈ env.reservations, r.id < env.next_id)
    (hNodup : ids.Nodup) :
    (acquire_stock_reservation env ids).2 = true
  ∧ (∃ S : List StockReservation,
      (acquire_stock_reservation env ids).1.reservations
        = env.reservations ++ S.map (fun s => { s with reserve_called := true })
      ∧ (∀ s ∈ S, ∃ lid ∈ ids, ∃ line, env.findLine lid = some line ∧
          line.is_stock_reservable = true ∧ CopiedFrom s line)
      ∧ (∀ lid ∈ ids, reservableInEnv env lid = true →
          (S.filter (fun s => s.sale_line_id = lid)).length = 1)
      ∧ (∀ lid ∈ ids, reservableInEnv env lid = false →
          (S.filter (fun s => s.sale_line_id = lid)).length = 0))
  ∧ (∀ lid ∈ ids, ∀ line, env.findLine lid = some line →
      line.is_stock_reservable = true →
      ∀ order, env.findOrder line.order_id = some order →
      ∃ o2, (acquire_stock_reservation env ids).1.findOrder line.order_id
          = some o2 ∧ o2.procurement_group_id.isSome = true)
  ∧ (release_stock_reservation env ids).2 = true
  ∧ (∀ r ∈ (release_stock_reservation env ids).1.reservations,
      r.sale_line_id ∈ ids → r.release_called = true) := by
  rcases acquire_spec env ids hWF with ⟨S, hresv, _, _, hmapflt, hsrc, _, _⟩
  refine ⟨rfl, ⟨S, hresv, hsrc, ?_, ?_⟩, ?_, (release_marks env ids).1,
    (release_marks env ids).2⟩
  · intro lid hmem hrsv
    have h1 : ((S.map (fun s => s.sale_line_id)).filter
          (fun x => x = lid)).length
        = (S.filter (fun s => s.sale_line_id = lid)).length :=
      length_filter_map (fun s => s.sale_line_id) _ S
    rw [← h1, hmapflt]
    have hmemf : lid ∈ ids.filter (reservableInEnv env) :=
      List.mem_filter.mpr ⟨hmem, hrsv⟩
    rw [filter_eq_singleton_of_nodup _ lid (hNodup.filter _) hmemf]
    rfl
  · intro lid hmem hrsv
    have h1 : ((S.map (fun s => s.sale_line_id)).filter
          (fun x => x = lid)).length
        = (S.filter (fun s => s.sale_line_id = lid)).length :=
      length_filter_map (fun s => s.sale_line_id) _ S
    rw [← h1, hmapflt]
    have hnm : lid ∉ ids.filter (reservableInEnv env) := by
      intro hin
      have h2 := (List.mem_filter.mp hin).2
      rw [hrsv] at h2
      exact absurd h2 (by simp)
    rw [filter_eq_nil_of_not_mem _ lid hnm]
    rfl
  · intro lid hmem line hline hres order horder
    exact acquire_group env ids lid line order hmem hline hres horder

/-- Records for the C6 witness: a reservable line on an order without a
procurement group. -/
def orderC6 : SaleOrder :=
  { id := 1, name := "SO6", state := "draft", warehouse_id := none,
    picking_policy := "direct", partner_shipping_id := 8,
    procurement_group_id := none, has_stock_reservation := false,
    is_stock_reservable := true }

def lineC6 : SaleOrderLine :=
  { id := 2, order_id := 1, state := "draft", product_id := some 50,
    product_uom := 7, product_uom_qty := 4, price_unit := 9, name := "L6",
    stock_owner_id := none, is_stock_reservable := true }

def envC6 : Env :=
  { products := [], rules := [], warehouses := [], groups := [],
    reservations := [], lines := [lineC6], orders := [orderC6], next_id := 100 }

/-- Witness for C6 at a concrete one-line recordset. -/
theorem claim_C6_acquire_release_witness :
    (acquire_stock_reservation envC6 [2]).2 = true
  ∧ (∃ S : List StockReservation,
      (acquire_stock_reservation envC6 [2]).1.reservations
        = envC6.reservations ++ S.map (fun s => { s with reserve_called := true })
      ∧ (∀ s ∈ S, ∃ lid ∈ [2], ∃ line, envC6.findLine lid = some line ∧
          line.is_stock_reservable = true ∧ CopiedFrom s line)
      ∧ (∀ lid ∈ [2], reservableInEnv envC6 lid = true →
          (S.filter (fun s => s.sale_line_id = lid)).length = 1)
      ∧ (∀ lid ∈ [2], reservableInEnv envC6 lid = false →
          (S.filter (fun s => s.sale_line_id = lid)).length = 0))
  ∧ (∀ lid ∈ [2], ∀ line, envC6.findLine lid = some line →
      line.is_stock_reservable = true →
      ∀ order, envC6.findOrder line.order_id = some order →
      ∃ o2, (acquire_stock_reservation envC6 [2]).1.findOrder line.order_id
          = some o2 ∧ o2.procurement_group_id.isSome = true)
  ∧ (release_stock_reservation envC6 [2]).2 = true
  ∧ (∀ r ∈ (release_stock_reservation envC6 [2]).1.reservations,
      r.sale_line_id ∈ [2] → r.release_called = true) :=
  claim_C6_acquire_release envC6 [2] (by decide) (by decide)

/-- C7: `_action_confirm` and `action_cancel` first release every stock
reservation linked to any line of the orders and only then delegate to the
host behaviour, so no linked reservation survives unreleased. -/
theorem claim_C7_confirm_cancel_release (env : Env) (orderIds : List Nat) :
    action_confirm env orderIds
      = superActionConfirm (release_all_stock_reservation env orderIds).1 orderIds
  ∧ action_cancel env orderIds
      = superActionCancel (release_all_stock_reservation env orderIds).1 orderIds
  ∧ (∀ r ∈ (action_confirm env orderIds).reservations,
      (∃ l ∈ env.lines, l.order_id ∈ orderIds ∧ r.sale_line_id = l.id) →
      r.release_called = true)
  ∧ (∀ r ∈ (action_cancel env orderIds).reservations,
      (∃ l ∈ env.lines, l.order_id ∈ orderIds ∧ r.sale_line_id = l.id) →
      r.release_called = true) := by
  have hmark : ∀ r ∈ (release_all_stock_reservation env orderIds).1.reservations,
      (∃ l ∈ env.lines, l.order_id ∈ orderIds ∧ r.sale_line_id = l.id) →
      r.release_called = true := by
    intro r hr hex
    rcases hex with ⟨l, hl, hord, hslid⟩
    have hin : r.sale_line_id ∈
        ((env.lines.filter (fun l => l.order_id ∈ orderIds)).map
          (fun l => l.id)) := by
      rw [hslid]
      exact List.mem_map.mpr ⟨l, List.mem_filter.mpr ⟨hl, by simp [hord]⟩, rfl⟩
    exact (release_marks env _).2 r hr hin
  exact ⟨rfl, rfl, hmark, hmark⟩

/-- Records for the C7 witness. -/
def orderC7 : SaleOrder :=
  { id := 1, name := "SO7", state := "draft", warehouse_id := none,
    picking_policy := "direct", partner_shipping_id := 8,
    procurement_group_id := none, has_stock_reservation := true,
    is_stock_reservable := false }

def lineC7 : SaleOrderLine :=
  { id := 2, order_id := 1, state := "draft", product_id := some 50,
    product_uom := 7, product_uom_qty := 4, price_unit := 9, name := "L7",
    stock_owner_id := none, is_stock_reservable := false }

def resvC7 : StockReservation :=
  { id := 10, sale_line_id := 2, product_id := some 50, product_uom := 7,
    product_uom_qty := 4, date_validity := none, name := "R7", note := none,
    price_unit := 9, partner_id := 8, restrict_partner_id := none,
    group_id := none, reserve_called := true, release_called := false }

def envC7 : Env :=
  { products := [], rules := [], warehouses := [], groups := [],
    reservations := [resvC7], lines := [lineC7], orders := [orderC7],
    next_id := 100 }

def resvC7released : StockReservation := { resvC7 with release_called := true }

/-- Witness for C7: confirming the concrete order releases its line's
reservation. -/
theorem claim_C7_confirm_cancel_release_witness :
    resvC7released.release_called = true :=
  (claim_C7_confirm_cancel_release envC7 [1]).2.2.1 resvC7released (by decide)
    ⟨lineC7, by decide, by decide, by decide⟩

theorem compute_true_no_res (env : Env) (line : SaleOrderLine)
    (h : computeIsStockReservable env line = true) :
    Env.reservationsOf env line.id = [] := by
  have hb : ∀ b : Bool, (if b = true then true else false) = b := by
    intro b; cases b <;> simp
  unfold computeIsStockReservable at h
  rw [hb] at h
  simp only [Bool.and_eq_true, List.isEmpty_iff] at h
  exact h.2

theorem findLine_recompute (env : Env) (lid : Nat) :
    (recomputeLines env).findLine lid
      = (env.findLine lid).map
          (fun l => { l with is_stock_reservable := computeIsStockReservable env l }) := by
  unfold recomputeLines Env.findLine
  dsimp only
  exact find?_map_of_pred
    (fun l => { l with is_stock_reservable := computeIsStockReservable env l })
    (fun l => decide (l.id = lid)) (fun x => rfl) env.lines

/-- C9: a second `acquire_stock_reservation` (after the stored line compute
has been refreshed) creates no reservation for a line that obtained one in the
first call: such a line now has a non-empty `reservation_ids`, so its compute
yields `is_stock_reservable = false` and the loop skips it. -/
theorem claim_C9_acquire_idempotent (env : Env) (ids : List Nat)
    (hWF : ∀ r ∈ env.reservations, r.id < env.next_id)
    (lid : Nat) (hmem : lid ∈ ids)
    (hgot : ∃ r ∈ (acquire_stock_reservation env ids).1.reservations,
        env.next_id ≤ r.id ∧ r.sale_line_id = lid) :
    ∀ r2 ∈ (acquire_stock_reservation
        (recomputeLines (acquire_stock_reservation env ids).1)
        ids).1.reservations,
      (recomputeLines (acquire_stock_reservation env ids).1).next_id ≤ r2.id →
      r2.sale_line_id ≠ lid := by
  rcases acquire_spec env ids hWF with ⟨S1, hres1, _, _, _, _, hnext1, hwf1⟩
  have hwf2 : ∀ r ∈ (recomputeLines (acquire_stock_reservation env ids).1).reservations,
      r.id < (recomputeLines (acquire_stock_reservation env ids).1).next_id :=
    hwf1
  rcases acquire_spec (recomputeLines (acquire_stock_reservation env ids).1)
      ids hwf2 with ⟨S2, hres2, _, _, _, hsrc2, _, _⟩
  intro r2 hr2 hge heq
  rw [hres2] at hr2
  rcases List.mem_append.mp hr2 with hold | hnew
  · have := hwf2 r2 hold
    omega
  · rcases List.mem_map.mp hnew with ⟨s2, hs2, hsid⟩
    rcases hsrc2 s2 hs2 with ⟨lid2, hlid2, line2, hline2, hresv2, hcop⟩
    have hs2slid : s2.sale_line_id = lid := by
      rw [← heq, ← hsid]
    have hlid2eq : lid2 = lid := by
      rw [← findLine_id _ lid2 line2 hline2, ← hcop.1]
      exact hs2slid
    rw [hlid2eq] at hline2
    rw [findLine_recompute (acquire_stock_reservation env ids).1 lid] at hline2
    rcases Option.map_eq_some'.mp hline2 with ⟨l1, hl1, hgl⟩
    have hcomp : computeIsStockReservable (acquire_stock_reservation env ids).1 l1
        = true := by
      rw [← hresv2, ← hgl]
    have hempty := compute_true_no_res _ l1 hcomp
    rw [findLine_id _ lid l1 hl1] at hempty
    rcases hgot with ⟨r, hrmem, _, hrslid⟩
    have hrin : r ∈ Env.reservationsOf (acquire_stock_reservation env ids).1 lid :=
      List.mem_filter.mpr ⟨hrmem, by simp [hrslid]⟩
    rw [hempty] at hrin
    exact List.not_mem_nil r hrin

/-- Records for the C9 witness. -/
def orderC9 : SaleOrder :=
  { id := 1, name := "SO9", state := "draft", warehouse_id := none,
    picking_policy := "direct", partner_shipping_id := 8,
    procurement_group_id := none, has_stock_reservation := false,
    is_stock_reservable := true }

def lineC9 : SaleOrderLine :=
  { id := 2, order_id := 1, state := "draft", product_id := some 50,
    product_uom := 7, product_uom_qty := 4, price_unit := 9, name := "L9",
    stock_owner_id := none, is_stock_reservable := true }

def envC9 : Env :=
  { products := [], rules := [], warehouses := [], groups := [],
    reservations := [], lines := [lineC9], orders := [orderC9], next_id := 100 }

/-- Witness for C9: after the first acquisition and recompute, the second
acquisition creates nothing for the already-reserved line. -/
theorem claim_C9_acquire_idempotent_witness :
    (∃ r ∈ (acquire_stock_reservation envC9 [2]).1.reservations,
        envC9.next_id ≤ r.id ∧ r.sale_line_id = 2)
  ∧ (∀ r2 ∈ (acquire_stock_reservation
        (recomputeLines (acquire_stock_reservation envC9 [2]).1)
        [2]).1.reservations,
      (recomputeLines (acquire_stock_reservation envC9 [2]).1).next_id ≤ r2.id →
      r2.sale_line_id ≠ 2) :=
  ⟨by decide,
   claim_C9_acquire_idempotent envC9 [2] (by decide) 2 (by decide) (by decide)⟩

end StockReserveSale
